import Mathlib

/-!
Verification of the parceldata ingestion/reconciliation core.

This file shallowly embeds the Python modules
`app/services/address.py`, `app/services/entity_resolution.py`,
`app/services/quality.py` and `app/services/ingestion/pipeline.py`
into Lean and proves the specified properties about them.

Modelling conventions:
* Python `float` values are modelled as rationals, machine strings as
  Lean strings under ASCII conventions for case and character classes.
* External libraries that the code calls (the `usaddress` CRF tagger,
  the `jellyfish` Jaro-Winkler metric, transcendental haversine
  arithmetic, the `hashlib` MD5 digest, and the network geocoder) are
  not part of the repository; they appear as explicit function
  parameters of the embedded definitions, and theorems quantify over
  them (with hypotheses stating their documented guarantees).
* Python truthiness of an optional string is "is not `None` and not
  the empty string"; of a number, "nonzero"; of a list, "non-empty".
-/

namespace ParcelData

/-! ### Kernel-evaluable rational arithmetic

The standard `Rat` operations are `@[irreducible]`, so terms built from
them cannot be evaluated by `decide`/`rfl`.  The embedded code therefore
uses the following wrappers, built from the always-normalizing
constructors `mkRat`/`Rat.divInt` (which do reduce); the bridge lemmas
prove each wrapper equal to the corresponding field operation on `ℚ`,
so every theorem is stated and proved in terms of ordinary rational
arithmetic. -/

/-- Addition on `ℚ`, evaluably. -/
def qadd (a b : ℚ) : ℚ :=
  mkRat (a.num * b.den + b.num * a.den) (a.den * b.den)

/-- Multiplication on `ℚ`, evaluably. -/
def qmul (a b : ℚ) : ℚ := mkRat (a.num * b.num) (a.den * b.den)

/-- Division on `ℚ`, evaluably (with the `x / 0 = 0` convention). -/
def qdiv (a b : ℚ) : ℚ :=
  Rat.divInt (a.num * b.den) (a.den * b.num)

/-- Strict comparison on `ℚ`, evaluably. -/
def qblt (a b : ℚ) : Bool :=
  decide (a.num * (b.den : ℤ) < b.num * (a.den : ℤ))

/-- Non-strict comparison on `ℚ`, evaluably. -/
def qble (a b : ℚ) : Bool :=
  decide (a.num * (b.den : ℤ) ≤ b.num * (a.den : ℤ))

/-- Left-fold sum of a list of rationals (Python `sum`), evaluably. -/
def qsum (l : List ℚ) : ℚ := l.foldl qadd 0

/-- The natural number `n` as a rational, evaluably. -/
def qnat (n : ℕ) : ℚ := mkRat n 1

theorem qadd_eq (a b : ℚ) : qadd a b = a + b := (Rat.add_def' a b).symm

theorem qmul_eq (a b : ℚ) : qmul a b = a * b := by
  rw [qmul, Rat.mul_def, Rat.normalize_eq_mkRat]

theorem qblt_iff (a b : ℚ) : qblt a b = true ↔ a < b := by
  rw [qblt, decide_eq_true_eq]
  have hd : (0:ℚ) < ((b.den * a.den : ℕ) : ℚ) := by
    exact_mod_cast Nat.pos_of_ne_zero (Nat.mul_ne_zero b.den_nz a.den_nz)
  have key : b - a =
      ((b.num * a.den - a.num * b.den : ℤ) : ℚ) / ((b.den * a.den : ℕ) : ℚ) := by
    rw [Rat.sub_def' b a, Rat.mkRat_eq_div]
  constructor
  · intro h
    have h2 : (0:ℚ) < b - a := by
      rw [key]
      apply div_pos _ hd
      exact_mod_cast Int.sub_pos.mpr h
    linarith [h2]
  · intro h
    have h2 : (0:ℚ) < b - a := by linarith
    rw [key] at h2
    rcases div_pos_iff.mp h2 with ⟨hn, _⟩ | ⟨_, hneg⟩
    · exact Int.sub_pos.mp (by exact_mod_cast hn)
    · exact absurd hd (not_lt.mpr hneg.le)

theorem qble_iff (a b : ℚ) : qble a b = true ↔ a ≤ b := by
  rw [qble, decide_eq_true_eq]
  constructor
  · intro h
    by_contra hab
    have hba : b < a := lt_of_not_le hab
    have := (qblt_iff b a).mpr hba
    rw [qblt, decide_eq_true_eq] at this
    omega
  · intro h
    by_contra hint
    have h2 : b.num * (a.den : ℤ) < a.num * (b.den : ℤ) := by omega
    have := (qblt_iff b a).mp (by rw [qblt, decide_eq_true_eq]; exact h2)
    exact absurd h (not_le.mpr this)

theorem qdiv_eq (a b : ℚ) : qdiv a b = a / b := by
  rw [qdiv, Rat.divInt_eq_div]
  rcases eq_or_ne b 0 with rfl | hb
  · simp
  · have hbn : b.num ≠ 0 := Rat.num_ne_zero.mpr hb
    have had : ((a.den : ℤ) : ℚ) ≠ 0 := by
      exact_mod_cast (Nat.cast_ne_zero.mpr a.den_nz : ((a.den : ℤ) ≠ 0))
    have hbd : ((b.den : ℤ) : ℚ) ≠ 0 := by
      exact_mod_cast (Nat.cast_ne_zero.mpr b.den_nz : ((b.den : ℤ) ≠ 0))
    have hbnq : ((b.num : ℤ) : ℚ) ≠ 0 := by exact_mod_cast hbn
    have ha : (a : ℚ) = (a.num : ℚ) / (a.den : ℚ) := (Rat.num_div_den a).symm
    have hbq : (b : ℚ) = (b.num : ℚ) / (b.den : ℚ) := (Rat.num_div_den b).symm
    conv_rhs => rw [ha, hbq]
    push_cast
    rw [div_div_div_eq]

theorem qsum_suffix (l : List ℚ) (acc : ℚ) :
    List.foldl qadd acc l = acc + l.sum := by
  induction l generalizing acc with
  | nil => simp
  | cons x xs ih => simp [List.foldl_cons, ih, qadd_eq]; ring

theorem qsum_eq (l : List ℚ) : qsum l = l.sum := by
  rw [qsum, qsum_suffix]; ring

theorem qnat_eq (n : ℕ) : qnat n = (n : ℚ) := by
  rw [qnat, Rat.mkRat_eq_div]
  simp

/-! ### Python string primitives (ASCII conventions) -/

/-- Length of a string in characters, like Python `len`. -/
def sLen (s : String) : Nat := s.data.length

/-- Python slice `s[:n]`. -/
def sTake (s : String) (n : Nat) : String := ⟨s.data.take n⟩

/-- Python slice `s[n:]`. -/
def sDrop (s : String) (n : Nat) : String := ⟨s.data.drop n⟩

/-- Whether every character satisfies the predicate (Python `str.isdigit`
style checks are this plus non-emptiness, supplied at use sites). -/
def sAll (s : String) (p : Char → Bool) : Bool := s.data.all p

/-- Drop leading whitespace from a character list. -/
def stripLeft : List Char → List Char
  | [] => []
  | c :: cs => if c.isWhitespace then stripLeft cs else c :: cs

/-- Python `str.strip()`: remove leading and trailing whitespace. -/
def pyStrip (s : String) : String :=
  ⟨(stripLeft (stripLeft s.data.reverse).reverse)⟩

/-- Python `str.lower()` (ASCII). -/
def pyLower (s : String) : String := ⟨s.data.map Char.toLower⟩

/-- Python `str.upper()` (ASCII). -/
def pyUpper (s : String) : String := ⟨s.data.map Char.toUpper⟩

/-- Helper for `pyTitle`: the boolean records whether the previous
character was alphabetic. -/
def titleAux : Bool → List Char → List Char
  | _, [] => []
  | prevAlpha, c :: cs =>
    (if c.isAlpha then (if prevAlpha then c.toLower else c.toUpper) else c)
      :: titleAux c.isAlpha cs

/-- Python `str.title()` (ASCII): first letter of every run of letters
uppercased, the rest lowercased. -/
def pyTitle (s : String) : String := ⟨titleAux false s.data⟩

/-- Python idiom `s or None` for a string: `None` when empty. -/
def strOrNone (s : String) : Option String :=
  if s = "" then none else some s

/-- Python `" ".join(parts)`. -/
def joinSp : List String → String
  | [] => ""
  | [s] => s
  | s :: rest => s ++ " " ++ joinSp rest

/-- Append a suffix to the last element of a list of strings
(Python `parts[-1] += suf`, only used on non-empty lists). -/
def appendToLast (suf : String) : List String → List String
  | [] => []
  | [s] => [s ++ suf]
  | s :: rest => s :: appendToLast suf rest

/-! ### `app/services/address.py` -/

/-- Lookup table `STREET_SUFFIXES` from `address.py`. -/
def STREET_SUFFIXES : String → Option String
  | "avenue" => some "Ave"
  | "ave" => some "Ave"
  | "boulevard" => some "Blvd"
  | "blvd" => some "Blvd"
  | "circle" => some "Cir"
  | "cir" => some "Cir"
  | "court" => some "Ct"
  | "ct" => some "Ct"
  | "drive" => some "Dr"
  | "dr" => some "Dr"
  | "highway" => some "Hwy"
  | "hwy" => some "Hwy"
  | "lane" => some "Ln"
  | "ln" => some "Ln"
  | "parkway" => some "Pkwy"
  | "pkwy" => some "Pkwy"
  | "place" => some "Pl"
  | "pl" => some "Pl"
  | "road" => some "Rd"
  | "rd" => some "Rd"
  | "street" => some "St"
  | "st" => some "St"
  | "terrace" => some "Ter"
  | "ter" => some "Ter"
  | "trail" => some "Trl"
  | "trl" => some "Trl"
  | "way" => some "Way"
  | _ => none

/-- Lookup table `DIRECTIONALS` from `address.py`. -/
def DIRECTIONALS : String → Option String
  | "north" => some "N"
  | "n" => some "N"
  | "south" => some "S"
  | "s" => some "S"
  | "east" => some "E"
  | "e" => some "E"
  | "west" => some "W"
  | "w" => some "W"
  | "northeast" => some "NE"
  | "ne" => some "NE"
  | "northwest" => some "NW"
  | "nw" => some "NW"
  | "southeast" => some "SE"
  | "se" => some "SE"
  | "southwest" => some "SW"
  | "sw" => some "SW"
  | _ => none

/-- Lookup table `UNIT_TYPES` from `address.py`. -/
def UNIT_TYPES : String → Option String
  | "apartment" => some "Apt"
  | "apt" => some "Apt"
  | "suite" => some "Ste"
  | "ste" => some "Ste"
  | "unit" => some "Unit"
  | "floor" => some "Fl"
  | "fl" => some "Fl"
  | "#" => some "Apt"
  | _ => none

/-- Dataclass `NormalizedAddress` from `address.py`. -/
structure NormalizedAddress where
  street_number : Option String
  street_name : Option String
  street_suffix : Option String
  street_direction : Option String
  unit_type : Option String
  unit_number : Option String
  city : Option String
  state : Option String
  zip_code : Option String
  zip4 : Option String
  street_address : Option String
  formatted_address : Option String
  confidence : ℚ
deriving DecidableEq, Repr

/-- Function `_empty_address` from `address.py`. -/
def _empty_address : NormalizedAddress :=
  ⟨none, none, none, none, none, none, none, none, none, none, none, none, 0⟩

/-- The component labels of a successful `usaddress.tag` call that
`normalize` reads, each defaulting to the empty string for an absent
label (Python `parsed.get(key, "")`). -/
structure TagMap where
  AddressNumber : String
  StreetNamePreDirectional : String
  StreetNamePreModifier : String
  StreetNamePreType : String
  StreetName : String
  StreetNamePostType : String
  StreetNamePostDirectional : String
  OccupancyType : String
  OccupancyIdentifier : String
  PlaceName : String
  StateName : String
  ZipCode : String
deriving DecidableEq, Repr

/-- A `TagMap` with every component absent. -/
def emptyTag : TagMap := ⟨"", "", "", "", "", "", "", "", "", "", "", ""⟩

/-- Address-confidence weighting from the tail of `normalize`:
0.2 for a street number, 0.3 for a street name, 0.2 for a city,
0.2 for a state and 0.1 for a ZIP. -/
def addr_confidence (hasNum hasName hasCity hasState hasZip : Bool) : ℚ :=
  qadd (qadd (qadd (qadd (if hasNum then mkRat 2 10 else 0)
    (if hasName then mkRat 3 10 else 0))
    (if hasCity then mkRat 2 10 else 0))
    (if hasState then mkRat 2 10 else 0))
    (if hasZip then mkRat 1 10 else 0)

/-- Function `normalize` from `address.py`.  The outcome of the external
`usaddress.tag` call is passed in as `tagged`: `none` models the
`RepeatedLabelError` branch, `some p` a successful tagging. -/
def normalize (raw_address : String) (tagged : Option TagMap) :
    NormalizedAddress :=
  if pyStrip raw_address = "" then _empty_address
  else
    match tagged with
    | none => _empty_address
    | some parsed =>
      let street_number := strOrNone (pyStrip parsed.AddressNumber)
      let street_name_parts :=
        ([pyStrip parsed.StreetNamePreDirectional,
          pyStrip parsed.StreetNamePreModifier,
          pyStrip parsed.StreetNamePreType,
          pyStrip parsed.StreetName]).filter (fun v => v ≠ "")
      let street_name := strOrNone (joinSp street_name_parts)
      let raw_suffix := pyStrip (pyLower parsed.StreetNamePostType)
      let street_suffix :=
        if raw_suffix = "" then none
        else some ((STREET_SUFFIXES raw_suffix).getD (pyTitle raw_suffix))
      let raw_direction := pyStrip (pyLower parsed.StreetNamePostDirectional)
      let street_direction :=
        if raw_direction = "" then none
        else some ((DIRECTIONALS raw_direction).getD (pyUpper raw_direction))
      let raw_unit_type := pyStrip (pyLower parsed.OccupancyType)
      let unit_type :=
        if raw_unit_type = "" then none
        else some ((UNIT_TYPES raw_unit_type).getD (pyTitle raw_unit_type))
      let unit_number := strOrNone (pyStrip parsed.OccupancyIdentifier)
      let city := strOrNone (pyTitle (pyStrip parsed.PlaceName))
      let raw_state := pyUpper (pyStrip parsed.StateName)
      let state :=
        if sLen raw_state = 2 ∧ sAll raw_state Char.isAlpha then
          some raw_state
        else none
      let raw_zip := pyStrip parsed.ZipCode
      let zip_code :=
        if 5 ≤ sLen raw_zip ∧ sAll (sTake raw_zip 5) Char.isDigit then
          some (sTake raw_zip 5)
        else none
      let zip4 :=
        if 5 < sLen raw_zip then some (sTake (sDrop raw_zip 6) 4) else none
      let street_parts :=
        ([street_number, street_name, street_suffix].filterMap id)
          ++ (match street_direction with | some d => [d] | none => [])
      let street_address0 := strOrNone (joinSp street_parts)
      let street_address :=
        match unit_type, unit_number, street_address0 with
        | some ut, some un, some sa => some (sa ++ " " ++ ut ++ " " ++ un)
        | _, _, _ => street_address0
      let fp0 : List String :=
        (match street_address with | some sa => [sa] | none => [])
      let fp1 := fp0 ++ (match city with | some c => [c] | none => [])
      let fp2 :=
        match state with
        | some st => if fp1 ≠ [] then appendToLast "," fp1 ++ [st] else fp1
        | none => fp1
      let fp3 := fp2 ++ (match zip_code with | some z => [z] | none => [])
      let formatted_address := strOrNone (joinSp fp3)
      let confidence :=
        addr_confidence street_number.isSome street_name.isSome
          city.isSome state.isSome zip_code.isSome
      ⟨street_number, street_name, street_suffix, street_direction,
        unit_type, unit_number, city, state, zip_code, zip4,
        street_address, formatted_address, confidence⟩

example :
    normalize "123 Main Street, Austin, TX 78701"
      (some ⟨"123", "", "", "", "Main", "Street", "", "", "",
        "Austin", "TX", "78701"⟩) =
    ⟨some "123", some "Main", some "St", none, none, none,
      some "Austin", some "TX", some "78701", none,
      some "123 Main St", some "123 Main St Austin, TX 78701", 1⟩ := by
  decide

example : normalize "   " (some emptyTag) = _empty_address := by decide

/-! ### `app/services/entity_resolution.py` -/

/-- Dataclass `MatchCandidate`. -/
structure MatchCandidate where
  property_id : String
  confidence : ℚ
  match_type : String
  matched_fields : List String
deriving DecidableEq, Repr

/-- Dataclass `EntityResolutionResult`. -/
structure EntityResolutionResult where
  canonical_id : Option String
  confidence : ℚ
  «matches» : List MatchCandidate
  action : String
deriving DecidableEq, Repr

/-- Constant `CONFIDENCE_AUTO_MERGE = 0.90`. -/
def CONFIDENCE_AUTO_MERGE : ℚ := mkRat 90 100

/-- Constant `CONFIDENCE_REVIEW = 0.70`. -/
def CONFIDENCE_REVIEW : ℚ := mkRat 70 100

/-- Constant `CONFIDENCE_SEPARATE = 0.50` (unused by the code). -/
def CONFIDENCE_SEPARATE : ℚ := mkRat 50 100

/-- The `# Parcel ID match` block of `score_match` (lines 133-136):
the scores and matched-field names it appends.  Python truthiness makes
the signal fire only when both identifiers are non-`None`, non-empty
and equal. -/
def sm_parcel (input_parcel_id candidate_apn : Option String) :
    List ℚ × List String :=
  match input_parcel_id, candidate_apn with
  | some p, some a =>
    if p ≠ "" ∧ a ≠ "" ∧ p = a then ([1], ["parcel_id"]) else ([], [])
  | _, _ => ([], [])

/-- The `# Address similarity` block of `score_match` (lines 138-143). -/
def sm_address (simF : String → String → ℚ)
    (input_address candidate_address : Option String) :
    List ℚ × List String :=
  match input_address, candidate_address with
  | some ia, some ca =>
    if ia ≠ "" ∧ ca ≠ "" then
      let sim := simF ia ca
      if qblt (mkRat 85 100) sim then ([sim], ["address"]) else ([], [])
    else ([], [])
  | _, _ => ([], [])

/-- The `# Location proximity` block of `score_match` (lines 145-160). -/
def sm_location (distF : ℚ → ℚ → ℚ → ℚ → ℚ)
    (input_lat input_lng candidate_lat candidate_lng : Option ℚ) :
    List ℚ × List String :=
  match input_lat, input_lng, candidate_lat, candidate_lng with
  | some la, some lo, some cla, some clo =>
    let distance := distF la lo cla clo
    if qblt distance 10 then ([mkRat 95 100], ["location"])
    else if qblt distance 50 then ([mkRat 80 100], ["location"])
    else ([], [])
  | _, _, _, _ => ([], [])

/-- Function `score_match` from `entity_resolution.py`.

The two external metrics are parameters: `simF` stands for
`score_address_similarity` (usaddress-normalized, lowercased
Jaro-Winkler via `jellyfish`), `distF` for `haversine_distance`
(transcendental float arithmetic); theorems quantify over them. -/
def score_match (simF : String → String → ℚ)
    (distF : ℚ → ℚ → ℚ → ℚ → ℚ)
    (input_address : Option String) (input_lat input_lng : Option ℚ)
    (input_parcel_id : Option String) (candidate_id : String)
    (candidate_address : Option String)
    (candidate_lat candidate_lng : Option ℚ)
    (candidate_apn : Option String) (match_type : String) :
    MatchCandidate :=
  let step1 := sm_parcel input_parcel_id candidate_apn
  let step2 := sm_address simF input_address candidate_address
  let step3 :=
    sm_location distF input_lat input_lng candidate_lat candidate_lng
  let scores := step1.1 ++ step2.1 ++ step3.1
  let matched_fields := step1.2 ++ step2.2 ++ step3.2
  let confidence :=
    if scores ≠ [] then qdiv (qsum scores) (qnat scores.length) else 0
  ⟨candidate_id, confidence, match_type, matched_fields⟩

/-- Stable insertion of a candidate into a list sorted by descending
confidence: the new element goes after all previously-inserted elements
of greater *or equal* confidence, exactly the order Python's stable
`sorted(..., reverse=True)` produces. -/
def insertDesc (x : MatchCandidate) :
    List MatchCandidate → List MatchCandidate
  | [] => [x]
  | y :: ys =>
    if qblt y.confidence x.confidence then x :: y :: ys
    else y :: insertDesc x ys

/-- Python `sorted(candidates, key=lambda x: x.confidence, reverse=True)`
(a stable descending sort). -/
def sortByConfDesc (l : List MatchCandidate) : List MatchCandidate :=
  l.foldl (fun acc x => insertDesc x acc) []

/-- Function `classify_matches` from `entity_resolution.py`. -/
def classify_matches (candidates : List MatchCandidate) :
    EntityResolutionResult :=
  match candidates with
  | [] => ⟨none, 0, [], "keep_separate"⟩
  | _ =>
    let sorted_candidates := sortByConfDesc candidates
    let best := sorted_candidates.headD ⟨"", 0, "", []⟩
    let action :=
      if qble CONFIDENCE_AUTO_MERGE best.confidence then "auto_merge"
      else if qble CONFIDENCE_REVIEW best.confidence then "review"
      else "keep_separate"
    ⟨if action = "auto_merge" then some best.property_id else none,
      best.confidence, sorted_candidates.take 5, action⟩

/-- One entry of the `candidates: list[dict[str, object]]` argument of
`resolve_from_candidates`.  Conventions for the loosely-typed dict:
`id` is `str(cand.get("id", ""))` (missing key gives `""`),
`match_type` is `str(cand.get("match_type", "unknown"))` (missing key
gives `"unknown"`), `latitude`/`longitude` are `some` exactly when the
slot holds an `int`/`float`, and `address`/`apn` are the raw string
slots (`none` for a missing key or a `None` value). -/
structure CandDict where
  id : String
  address : Option String
  latitude : Option ℚ
  longitude : Option ℚ
  apn : Option String
  match_type : String
deriving DecidableEq, Repr

/-- Python `str(x) if x else None` applied to an optional string slot:
empty strings are falsy and become `None`. -/
def optTruthy (o : Option String) : Option String :=
  match o with
  | some s => if s = "" then none else some s
  | none => none

/-- Function `resolve_from_candidates` from `entity_resolution.py`. -/
def resolve_from_candidates (simF : String → String → ℚ)
    (distF : ℚ → ℚ → ℚ → ℚ → ℚ)
    (address : Option String) (lat lng : Option ℚ)
    (parcel_id : Option String) (candidates : List CandDict) :
    EntityResolutionResult :=
  let scored :=
    (candidates.map (fun cand =>
      score_match simF distF address lat lng parcel_id cand.id
        (optTruthy cand.address) cand.latitude cand.longitude
        (optTruthy cand.apn) cand.match_type)).filter
      (fun m => qblt (mkRat 3 10) m.confidence)
  classify_matches scored

example :
    (score_match (fun _ _ => mkRat 9 10) (fun _ _ _ _ => 3)
      (some "1 A St") (some 1) (some 2) (some "P1") "cand1"
      (some "1 A St") (some 1) (some 2) (some "P1") "exact") =
    ⟨"cand1", mkRat 95 100, "exact", ["parcel_id", "address", "location"]⟩ := by
  decide

example :
    (classify_matches [⟨"p1", mkRat 92 100, "exact", ["parcel_id"]⟩]).action =
      "auto_merge" := by decide

example :
    (resolve_from_candidates (fun _ _ => 0) (fun _ _ _ _ => 100)
      none none none (some "AP") [⟨"c1", none, none, none, some "AP", "exact"⟩,
        ⟨"c2", none, some 1, some 1, none, "geo"⟩]) =
    ⟨some "c1", 1, [⟨"c1", 1, "exact", ["parcel_id"]⟩], "auto_merge"⟩ := by
  decide

/-! ### `app/services/quality.py` -/

/-- A loosely-typed value of the Python payload dict.  Booleans are a
separate constructor because Python `bool` passes `isinstance(_, int)`
checks. -/
inductive PyVal where
  | vstr (s : String)
  | vint (n : ℤ)
  | vfloat (q : ℚ)
  | vbool (b : Bool)
deriving DecidableEq, Repr

/-- The integer `n` as a rational, evaluably. -/
def qint (n : ℤ) : ℚ := mkRat n 1

theorem qint_eq (n : ℤ) : qint n = (n : ℚ) := by
  rw [qint, Rat.mkRat_eq_div]
  simp

/-- Python truthiness of a payload value. -/
def pyTruthy : PyVal → Bool
  | .vstr s => decide (s ≠ "")
  | .vint n => decide (n ≠ 0)
  | .vfloat q => decide (q.num ≠ 0)
  | .vbool b => b

/-- Python `isinstance(x, str)`. -/
def as_str : PyVal → Option String
  | .vstr s => some s
  | _ => none

/-- Python `isinstance(x, int)` and the resulting integer value
(`True`/`False` count as `1`/`0`). -/
def as_int : PyVal → Option ℤ
  | .vint n => some n
  | .vbool b => some (if b then 1 else 0)
  | _ => none

/-- Python `isinstance(x, (int, float))` and the numeric value. -/
def as_num : PyVal → Option ℚ
  | .vint n => some (qint n)
  | .vfloat q => some q
  | .vbool b => some (if b then 1 else 0)
  | _ => none

/-- The fixed field set read by the quality scorer: the 8
`REQUIRED_FIELDS` and 8 `OPTIONAL_FIELDS` of `quality.py`.  A field is
`none` when the key is absent or its value is Python `None`. -/
structure PropertyData where
  address : Option PyVal
  city : Option PyVal
  state : Option PyVal
  zip_code : Option PyVal
  latitude : Option PyVal
  longitude : Option PyVal
  lot_sqft : Option PyVal
  property_type : Option PyVal
  bedrooms : Option PyVal
  bathrooms : Option PyVal
  sqft : Option PyVal
  year_built : Option PyVal
  assessed_value : Option PyVal
  estimated_value : Option PyVal
  zoning : Option PyVal
  owner_name : Option PyVal
deriving DecidableEq, Repr

/-- The `REQUIRED_FIELDS` slots of a record, in order. -/
def requiredSlots (d : PropertyData) : List (Option PyVal) :=
  [d.address, d.city, d.state, d.zip_code, d.latitude, d.longitude,
    d.lot_sqft, d.property_type]

/-- The `OPTIONAL_FIELDS` slots of a record, in order. -/
def optionalSlots (d : PropertyData) : List (Option PyVal) :=
  [d.bedrooms, d.bathrooms, d.sqft, d.year_built, d.assessed_value,
    d.estimated_value, d.zoning, d.owner_name]

/-- A `PropertyData` with every field absent. -/
def emptyData : PropertyData :=
  ⟨none, none, none, none, none, none, none, none, none, none, none,
    none, none, none, none, none⟩

/-- Function `_score_completeness` from `quality.py`. -/
def _score_completeness (data : PropertyData) : ℚ :=
  let required_present := (requiredSlots data).countP (fun o => o.isSome)
  let optional_present := (optionalSlots data).countP (fun o => o.isSome)
  qadd (qmul (qdiv (qnat required_present) (qnat 8)) (mkRat 7 10))
    (qmul (qdiv (qnat optional_present) (qnat 8)) (mkRat 3 10))

/-- The `checks` list built by `_score_accuracy`: per-field format
validations, each contributing 1.0 when the format is right and 0.5
(0.0 for coordinates) when wrong, skipped when inapplicable. -/
def accuracy_checks (data : PropertyData) : List ℚ :=
  (match data.zip_code.bind as_str with
   | some s =>
     if s ≠ "" then
       [if sLen s = 5 ∧ sAll s Char.isDigit then 1 else mkRat 5 10]
     else []
   | none => [])
  ++ (match data.state.bind as_str with
   | some s =>
     if s ≠ "" then
       [if sLen s = 2 ∧ sAll s Char.isAlpha then 1 else mkRat 5 10]
     else []
   | none => [])
  ++ (match data.year_built.bind as_int with
   | some y => [if 1800 ≤ y ∧ y ≤ 2030 then 1 else mkRat 5 10]
   | none => [])
  ++ (match data.latitude.bind as_num, data.longitude.bind as_num with
   | some la, some lo =>
     [if (qble (qint (-90)) la && qble la (qint 90)
          && qble (qint (-180)) lo && qble lo (qint 180)) = true
      then 1 else 0]
   | _, _ => [])

/-- Function `_score_accuracy` from `quality.py`. -/
def _score_accuracy (data : PropertyData) : ℚ :=
  let checks := accuracy_checks data
  if checks ≠ [] then qdiv (qsum checks) (qnat checks.length)
  else mkRat 8 10

/-- The `checks` list built by `_score_consistency`: cross-field
plausibility validations. -/
def consistency_checks (data : PropertyData) : List ℚ :=
  (match data.lot_sqft.bind as_num, data.sqft.bind as_num with
   | some l, some b =>
     if (qblt 0 l && qblt 0 b) = true then
       [if qble b l = true then 1 else mkRat 5 10]
     else []
   | _, _ => [])
  ++ (match data.assessed_value.bind as_num, data.sqft.bind as_num with
   | some a, some b =>
     if (qblt 0 a && qblt 0 b) = true then
       let ppsf := qdiv a b
       [if (qble (qint 50) ppsf && qble ppsf (qint 2000)) = true
        then 1 else mkRat 7 10]
     else []
   | _, _ => [])

/-- Function `_score_consistency` from `quality.py`. -/
def _score_consistency (data : PropertyData) : ℚ :=
  let checks := consistency_checks data
  if checks ≠ [] then qdiv (qsum checks) (qnat checks.length)
  else mkRat 85 100

/-- Function `_score_timeliness` from `quality.py`.  The external clock
is eliminated by passing `age_hours`, the value of
`int((datetime.utcnow() - source_timestamp).total_seconds() / 3600)`,
directly; `none` models a missing `source_timestamp`. -/
def _score_timeliness (age_hours : Option ℤ) : ℚ × ℤ :=
  match age_hours with
  | none => (mkRat 7 10, 0)
  | some h =>
    (if h < 24 then 1
     else if h < 168 then mkRat 9 10
     else if h < 720 then mkRat 8 10
     else if h < 2160 then mkRat 7 10
     else mkRat 5 10, h)

/-- Function `_score_validity` from `quality.py`. -/
def _score_validity : ℚ := mkRat 95 100

/-- Python `round(x, 3)`: round half to even at the third decimal. -/
def pyRound3 (q : ℚ) : ℚ :=
  let n := 1000 * q.num
  let d : ℤ := (q.den : ℤ)
  let f := Int.fdiv n d
  let r2 := 2 * (n - f * d)
  let k :=
    if r2 < d then f
    else if d < r2 then f + 1
    else if f % 2 = 0 then f else f + 1
  mkRat k 1000

/-- Dataclass `DataQualityScore` from `quality.py`. -/
structure DataQualityScore where
  score : ℚ
  completeness : ℚ
  accuracy : ℚ
  consistency : ℚ
  timeliness : ℚ
  validity : ℚ
  uniqueness : ℚ
  freshness_hours : ℤ
  confidence : String
deriving DecidableEq, Repr

/-- Function `calculate_quality_score` from `quality.py` (with the
timestamp replaced by its age in hours, see `_score_timeliness`). -/
def calculate_quality_score (property_data : PropertyData)
    (age_hours : Option ℤ) (duplicate_check : Bool) : DataQualityScore :=
  let completeness := _score_completeness property_data
  let accuracy := _score_accuracy property_data
  let consistency := _score_consistency property_data
  let tl := _score_timeliness age_hours
  let timeliness := tl.1
  let freshness_hours := tl.2
  let validity := _score_validity
  let uniqueness := if duplicate_check then mkRat 95 100 else 1
  let score := qadd (qadd (qadd (qadd (qadd
      (qmul completeness (mkRat 25 100)) (qmul accuracy (mkRat 25 100)))
      (qmul consistency (mkRat 20 100)))
      (qmul timeliness (mkRat 15 100)))
      (qmul validity (mkRat 10 100)))
      (qmul uniqueness (mkRat 5 100))
  let confidence :=
    if qble (mkRat 85 100) score = true then "high"
    else if qble (mkRat 70 100) score = true then "medium"
    else "low"
  ⟨pyRound3 score, pyRound3 completeness, pyRound3 accuracy,
    pyRound3 consistency, pyRound3 timeliness, pyRound3 validity,
    pyRound3 uniqueness, freshness_hours, confidence⟩

example :
    calculate_quality_score emptyData none false =
      ⟨mkRat 62 100, 0, mkRat 8 10, mkRat 85 100, mkRat 7 10,
        mkRat 95 100, 1, 0, "low"⟩ := by decide

example : pyRound3 (mkRat 1 3) = mkRat 333 1000 := by decide

example : pyRound3 (mkRat 8495 10000) = mkRat 85 100 := by decide

example : pyRound3 (mkRat 8485 10000) = mkRat 848 1000 := by decide

/-! ### `app/services/ingestion/pipeline.py` -/

/-- Dataclass `GeocodingResult` from `geocoding.py`. -/
structure GeocodingResult where
  latitude : ℚ
  longitude : ℚ
  accuracy : String
  source : String
  confidence : ℚ
deriving DecidableEq, Repr

/-- The slots of the provider `raw_data` dict that
`extract_property_data` reads (a field is `none` when the key is absent
or holds Python `None`). -/
structure RawData where
  address : Option PyVal
  city : Option PyVal
  state : Option PyVal
  zip : Option PyVal
  zip_code : Option PyVal
  lat : Option PyVal
  latitude : Option PyVal
  lng : Option PyVal
  longitude : Option PyVal
  lot_sqft : Option PyVal
  property_type : Option PyVal
  bedrooms : Option PyVal
  bathrooms : Option PyVal
  sqft : Option PyVal
  year_built : Option PyVal
  assessed_value : Option PyVal
deriving DecidableEq, Repr

/-- A `RawData` with every slot absent. -/
def emptyRaw : RawData :=
  ⟨none, none, none, none, none, none, none, none, none, none, none,
    none, none, none, none, none⟩

/-- Python `a or b` on payload values: keep `a` when truthy. -/
def pyOr (a b : Option PyVal) : Option PyVal :=
  match a with
  | some v => if pyTruthy v then some v else b
  | none => b

/-- Function `extract_property_data` from `pipeline.py`.  The three
quality fields it never maps (`estimated_value`, `zoning`,
`owner_name`) are always absent in its output. -/
def extract_property_data (raw_data : RawData) : PropertyData :=
  ⟨raw_data.address, raw_data.city, raw_data.state,
    pyOr raw_data.zip raw_data.zip_code,
    pyOr raw_data.lat raw_data.latitude,
    pyOr raw_data.lng raw_data.longitude,
    raw_data.lot_sqft, raw_data.property_type, raw_data.bedrooms,
    raw_data.bathrooms, raw_data.sqft, raw_data.year_built,
    raw_data.assessed_value, none, none, none⟩

/-- Pydantic model `RawPropertyRecord` from `ingestion/base.py`.  The
`extraction_timestamp: datetime` is modelled by its age in whole hours
at processing time (the only use the embedded code makes of it). -/
structure RawPropertyRecord where
  source_system : String
  source_type : String
  source_record_id : String
  extraction_age_hours : ℤ
  raw_data : RawData
  parcel_id : Option String
  address_raw : Option String
  latitude : Option ℚ
  longitude : Option ℚ
deriving DecidableEq, Repr

/-- Class `ProcessedRecord` from `pipeline.py`. -/
structure ProcessedRecord where
  property_id : String
  source_system : String
  source_type : String
  source_record_id : String
  address : Option NormalizedAddress
  latitude : Option ℚ
  longitude : Option ℚ
  quality : DataQualityScore
  canonical_id : Option String
  entity_confidence : ℚ
  raw_data : RawData
  extraction_age_hours : ℤ
deriving DecidableEq, Repr

/-- Function `generate_property_id` from `pipeline.py`.  The external
`hashlib.md5(x).hexdigest()` is the parameter `md5F`; theorems assume
only its documented shape (32 lowercase hex characters). -/
def generate_property_id (md5F : String → String)
    (raw : RawPropertyRecord) (address : Option NormalizedAddress) :
    String :=
  let state :=
    match address with
    | some a =>
      match a.state with
      | some s => if s = "" then "XX" else s
      | none => "XX"
    | none => "XX"
  let hash_input :=
    match raw.parcel_id with
    | some p =>
      if p = "" then raw.source_system ++ ":" ++ raw.source_record_id
      else p
    | none => raw.source_system ++ ":" ++ raw.source_record_id
  let hash_suffix := pyUpper (sTake (md5F hash_input) 10)
  state ++ "-" ++ hash_suffix

/-- The body of `IngestionPipeline.process_record` (the `try:` block of
lines 50-117), with each pipeline stage passed in as a fallible
function, so that an exception raised by any stage is an explicit
`Except.error` value. -/
def process_record_body
    (normalizeS : String → Except String NormalizedAddress)
    (geocodeS : String → Except String (Option GeocodingResult))
    (resolveS : Option String → Option ℚ → Option ℚ → Option String →
      List CandDict → Except String EntityResolutionResult)
    (generateS : RawPropertyRecord → Option NormalizedAddress →
      Except String String)
    (extractS : RawData → Except String PropertyData)
    (qualityS : PropertyData → Option ℤ → Except String DataQualityScore)
    (raw : RawPropertyRecord)
    (existing_candidates : Option (List CandDict)) :
    Except String ProcessedRecord :=
  let addressStep : Except String (Option NormalizedAddress) :=
    match raw.address_raw with
    | some s => if s ≠ "" then (normalizeS s).map some else .ok none
    | none => .ok none
  match addressStep with
  | .error e => .error e
  | .ok address =>
    let geoStep : Except String (Option ℚ × Option ℚ) :=
      if (raw.latitude.isNone || raw.longitude.isNone) && address.isSome
      then
        match address with
        | some a =>
          let formatted := a.formatted_address.getD ""
          if formatted ≠ "" then
            match geocodeS formatted with
            | .error e => .error e
            | .ok (some g) => .ok (some g.latitude, some g.longitude)
            | .ok none => .ok (raw.latitude, raw.longitude)
          else .ok (raw.latitude, raw.longitude)
        | none => .ok (raw.latitude, raw.longitude)
      else .ok (raw.latitude, raw.longitude)
    match geoStep with
    | .error e => .error e
    | .ok latlng =>
      let lat := latlng.1
      let lng := latlng.2
      let erStep : Except String (Option EntityResolutionResult) :=
        match existing_candidates with
        | some cands =>
          if cands ≠ [] then
            match resolveS (address.bind (fun a => a.formatted_address))
                lat lng raw.parcel_id cands with
            | .error e => .error e
            | .ok r => .ok (some r)
          else .ok none
        | none => .ok none
      match erStep with
      | .error e => .error e
      | .ok er =>
        let canonical_id : Option String :=
          match er with
          | some r => if r.action = "auto_merge" then r.canonical_id
                      else none
          | none => none
        let entity_confidence : ℚ :=
          match er with
          | some r => r.confidence
          | none => 0
        let idStep : Except String String :=
          match canonical_id with
          | some c => if c = "" then generateS raw address else .ok c
          | none => generateS raw address
        match idStep with
        | .error e => .error e
        | .ok property_id =>
          match extractS raw.raw_data with
          | .error e => .error e
          | .ok property_data =>
            match qualityS property_data
                (some raw.extraction_age_hours) with
            | .error e => .error e
            | .ok quality =>
              .ok ⟨property_id, raw.source_system, raw.source_type,
                raw.source_record_id, address, lat, lng, quality,
                canonical_id, entity_confidence, raw.raw_data,
                raw.extraction_age_hours⟩

/-- `IngestionPipeline.process_record`: the body wrapped in the
top-level `try/except` that turns any raised exception into a `None`
result. -/
def process_record
    (normalizeS : String → Except String NormalizedAddress)
    (geocodeS : String → Except String (Option GeocodingResult))
    (resolveS : Option String → Option ℚ → Option ℚ → Option String →
      List CandDict → Except String EntityResolutionResult)
    (generateS : RawPropertyRecord → Option NormalizedAddress →
      Except String String)
    (extractS : RawData → Except String PropertyData)
    (qualityS : PropertyData → Option ℤ → Except String DataQualityScore)
    (raw : RawPropertyRecord)
    (existing_candidates : Option (List CandDict)) :
    Option ProcessedRecord :=
  match process_record_body normalizeS geocodeS resolveS generateS
      extractS qualityS raw existing_candidates with
  | .ok r => some r
  | .error _ => none

/-- `process_record` with the repository's own stages plugged in; only
the genuinely external ingredients remain parameters: the `usaddress`
tagger `tagF`, the similarity metric `simF`, the haversine distance
`distF`, the network geocoder `geocodeS`, and the MD5 hex digest
`md5F`.  In particular the quality stage is called without the
`duplicate_check` argument, so it defaults to `False`, exactly as on
line 92-95 of `pipeline.py`. -/
def process_record_real (tagF : String → Option TagMap)
    (simF : String → String → ℚ) (distF : ℚ → ℚ → ℚ → ℚ → ℚ)
    (geocodeS : String → Except String (Option GeocodingResult))
    (md5F : String → String) (raw : RawPropertyRecord)
    (existing_candidates : Option (List CandDict)) :
    Option ProcessedRecord :=
  process_record
    (fun s => .ok (normalize s (tagF s)))
    geocodeS
    (fun a la lo p cs => .ok (resolve_from_candidates simF distF a la lo p cs))
    (fun r a => .ok (generate_property_id md5F r a))
    (fun rd => .ok (extract_property_data rd))
    (fun pd hrs => .ok (calculate_quality_score pd hrs false))
    raw existing_candidates

example :
    (process_record_real (fun _ => none) (fun _ _ => 0) (fun _ _ _ _ => 0)
        (fun _ => .ok none) (fun _ => "0123456789abcdef0123456789abcdef")
        ⟨"regrid", "county", "r1", 1, emptyRaw, some "APN-7", none,
          some 30, some (-97)⟩
        none).map (fun r => r.property_id) =
      some "XX-0123456789" := by decide

/-! ### Helper lemmas about the stable descending sort -/

/-- Sorted by non-increasing confidence. -/
def SortedDesc (l : List MatchCandidate) : Prop :=
  l.Pairwise (fun a b => b.confidence ≤ a.confidence)

theorem insertDesc_perm (x : MatchCandidate) (l : List MatchCandidate) :
    List.Perm (insertDesc x l) (x :: l) := by
  induction l with
  | nil => simp [insertDesc]
  | cons y ys ih =>
    rw [insertDesc]
    split
    · exact List.Perm.refl _
    · exact (ih.cons y).trans (List.Perm.swap x y ys)

theorem foldl_insertDesc_perm (l acc : List MatchCandidate) :
    List.Perm (List.foldl (fun acc x => insertDesc x acc) acc l)
      (acc ++ l) := by
  induction l generalizing acc with
  | nil => simp
  | cons x xs ih =>
    refine List.Perm.trans (ih (insertDesc x acc)) ?_
    refine List.Perm.trans ((insertDesc_perm x acc).append_right xs) ?_
    exact List.perm_middle.symm

theorem sortByConfDesc_perm (l : List MatchCandidate) :
    List.Perm (sortByConfDesc l) l := by
  simpa [sortByConfDesc] using foldl_insertDesc_perm l []

theorem insertDesc_sorted (x : MatchCandidate) (l : List MatchCandidate)
    (h : SortedDesc l) : SortedDesc (insertDesc x l) := by
  induction l with
  | nil => simp [insertDesc, SortedDesc]
  | cons y ys ih =>
    obtain ⟨h1, h2⟩ := List.pairwise_cons.mp h
    rw [insertDesc]
    split
    case isTrue hq =>
      have hyx : y.confidence < x.confidence := (qblt_iff _ _).mp hq
      rw [SortedDesc, List.pairwise_cons]
      refine ⟨?_, h⟩
      intro b hb
      rcases List.mem_cons.mp hb with rfl | hbys
      · exact le_of_lt hyx
      · exact le_trans (h1 b hbys) (le_of_lt hyx)
    case isFalse hq =>
      have hxy : x.confidence ≤ y.confidence := by
        by_contra hlt
        exact hq ((qblt_iff _ _).mpr (lt_of_not_le hlt))
      rw [SortedDesc, List.pairwise_cons]
      refine ⟨?_, ih h2⟩
      intro b hb
      rcases List.mem_cons.mp ((insertDesc_perm x ys).mem_iff.mp hb)
        with rfl | hbys
      · exact hxy
      · exact h1 b hbys

theorem foldl_insertDesc_sorted (l acc : List MatchCandidate)
    (h : SortedDesc acc) :
    SortedDesc (List.foldl (fun acc x => insertDesc x acc) acc l) := by
  induction l generalizing acc with
  | nil => exact h
  | cons x xs ih => exact ih (insertDesc x acc) (insertDesc_sorted x acc h)

theorem sortByConfDesc_sorted (l : List MatchCandidate) :
    SortedDesc (sortByConfDesc l) :=
  foldl_insertDesc_sorted l [] (by simp [SortedDesc])

theorem sortByConfDesc_head_max (l : List MatchCandidate) (h : l ≠ []) :
    ∃ b t, sortByConfDesc l = b :: t ∧ b ∈ l ∧
      ∀ c ∈ l, c.confidence ≤ b.confidence := by
  have hp := sortByConfDesc_perm l
  cases hs : sortByConfDesc l with
  | nil =>
    exfalso
    have hlen := hp.length_eq
    rw [hs] at hlen
    exact h (List.length_eq_zero.mp hlen.symm)
  | cons b t =>
    rw [hs] at hp
    refine ⟨b, t, rfl, hp.mem_iff.mp (List.mem_cons_self b t), ?_⟩
    intro c hc
    rcases List.mem_cons.mp (hp.mem_iff.mpr hc) with rfl | hct
    · exact le_refl _
    · have hsorted := sortByConfDesc_sorted l
      rw [hs, SortedDesc, List.pairwise_cons] at hsorted
      exact hsorted.1 c hct

/-- The value of the two classification constants. -/
theorem CONFIDENCE_AUTO_MERGE_eq : CONFIDENCE_AUTO_MERGE = (9/10 : ℚ) := by
  rw [CONFIDENCE_AUTO_MERGE, Rat.mkRat_eq_div]; norm_num

theorem CONFIDENCE_REVIEW_eq : CONFIDENCE_REVIEW = (7/10 : ℚ) := by
  rw [CONFIDENCE_REVIEW, Rat.mkRat_eq_div]; norm_num

/-- Closed form of `classify_matches` on a non-empty candidate list
whose stable descending sort is `b :: t`. -/
theorem classify_matches_char (cs : List MatchCandidate)
    (b : MatchCandidate) (t : List MatchCandidate)
    (hs : sortByConfDesc cs = b :: t) (hne : cs ≠ []) :
    classify_matches cs =
      ⟨if (9/10 : ℚ) ≤ b.confidence then some b.property_id else none,
        b.confidence, (b :: t).take 5,
        if (9/10 : ℚ) ≤ b.confidence then "auto_merge"
        else if (7/10 : ℚ) ≤ b.confidence then "review"
        else "keep_separate"⟩ := by
  cases cs with
  | nil => exact absurd rfl hne
  | cons c rest =>
    simp only [classify_matches, hs, List.headD_cons]
    by_cases hA : (9/10 : ℚ) ≤ b.confidence
    · have hbA : qble CONFIDENCE_AUTO_MERGE b.confidence = true := by
        rw [qble_iff, CONFIDENCE_AUTO_MERGE_eq]; exact hA
      simp [hbA, hA]
    · have hbA : qble CONFIDENCE_AUTO_MERGE b.confidence = false := by
        rw [Bool.eq_false_iff]
        intro hcon
        exact hA (CONFIDENCE_AUTO_MERGE_eq ▸ (qble_iff _ _).mp hcon)
      by_cases hR : (7/10 : ℚ) ≤ b.confidence
      · have hbR : qble CONFIDENCE_REVIEW b.confidence = true := by
          rw [qble_iff, CONFIDENCE_REVIEW_eq]; exact hR
        simp [hbA, hbR, hA, hR]
      · have hbR : qble CONFIDENCE_REVIEW b.confidence = false := by
          rw [Bool.eq_false_iff]
          intro hcon
          exact hR (CONFIDENCE_REVIEW_eq ▸ (qble_iff _ _).mp hcon)
        simp [hbA, hbR, hA, hR]

/-- C1: for a non-empty candidate list, `classify_matches` returns
`auto_merge` iff the highest candidate confidence is at least 0.90
(with the canonical id set to that best candidate's id), `review` iff
it lies in [0.70, 0.90) (with no canonical id), and `keep_separate`
otherwise; an empty list yields `keep_separate` with confidence 0.0 and
no canonical id. -/
theorem classify_matches_thresholds (cs : List MatchCandidate) :
    (cs = [] →
      classify_matches cs = ⟨none, 0, [], "keep_separate"⟩) ∧
    (cs ≠ [] →
      ∃ best ∈ cs,
        (∀ c ∈ cs, c.confidence ≤ best.confidence) ∧
        (classify_matches cs).confidence = best.confidence ∧
        ((classify_matches cs).action = "auto_merge" ↔
          (9/10 : ℚ) ≤ best.confidence) ∧
        ((classify_matches cs).action = "auto_merge" →
          (classify_matches cs).canonical_id = some best.property_id) ∧
        ((classify_matches cs).action = "review" ↔
          ((7/10 : ℚ) ≤ best.confidence ∧ best.confidence < 9/10)) ∧
        ((classify_matches cs).action = "review" →
          (classify_matches cs).canonical_id = none) ∧
        ((classify_matches cs).action = "keep_separate" ↔
          best.confidence < 7/10) ∧
        ((classify_matches cs).action = "keep_separate" →
          (classify_matches cs).canonical_id = none)) := by
  constructor
  · rintro rfl; rfl
  · intro hne
    obtain ⟨b, t, hs, hmem, hmax⟩ := sortByConfDesc_head_max cs hne
    rw [classify_matches_char cs b t hs hne]
    refine ⟨b, hmem, hmax, rfl, ?_, ?_, ?_, ?_, ?_, ?_⟩
    · by_cases hA : (9/10 : ℚ) ≤ b.confidence
      · simp [hA]
      · by_cases hR : (7/10 : ℚ) ≤ b.confidence <;> simp [hA, hR]
    · intro ha
      by_cases hA : (9/10 : ℚ) ≤ b.confidence
      · simp [hA]
      · by_cases hR : (7/10 : ℚ) ≤ b.confidence <;>
          simp [hA, hR] at ha
    · by_cases hA : (9/10 : ℚ) ≤ b.confidence
      · simp only [if_pos hA]
        constructor
        · intro h; exact absurd h (by decide)
        · rintro ⟨_, hlt⟩; linarith
      · by_cases hR : (7/10 : ℚ) ≤ b.confidence
        · simp only [if_neg hA, if_pos hR]
          constructor
          · intro _; exact ⟨hR, lt_of_not_le hA⟩
          · intro _; trivial
        · simp only [if_neg hA, if_neg hR]
          constructor
          · intro h; exact absurd h (by decide)
          · rintro ⟨hge, _⟩; exact absurd hge hR
    · intro hrev
      by_cases hA : (9/10 : ℚ) ≤ b.confidence
      · simp [hA] at hrev
      · simp [hA]
    · by_cases hA : (9/10 : ℚ) ≤ b.confidence
      · simp only [if_pos hA]
        constructor
        · intro h; exact absurd h (by decide)
        · intro hlt; linarith
      · by_cases hR : (7/10 : ℚ) ≤ b.confidence
        · simp only [if_neg hA, if_pos hR]
          constructor
          · intro h; exact absurd h (by decide)
          · intro hlt; exact absurd hR (not_le.mpr hlt)
        · simp only [if_neg hA, if_neg hR]
          constructor
          · intro _; exact lt_of_not_le hR
          · intro _; trivial
    · intro hks
      by_cases hA : (9/10 : ℚ) ≤ b.confidence
      · simp [hA] at hks
      · simp [hA]

theorem classify_matches_thresholds_witness :
    (classify_matches [⟨"p1", 1, "exact", []⟩]).action = "auto_merge" ∧
    (classify_matches [⟨"p1", 1, "exact", []⟩]).canonical_id =
      some "p1" := by
  obtain ⟨best, hmem, hmax, hconf, hA, hCan, _⟩ :=
    (classify_matches_thresholds [⟨"p1", 1, "exact", []⟩]).2 (by simp)
  have hb : best = ⟨"p1", 1, "exact", []⟩ := by simpa using hmem
  subst hb
  have ha := hA.mpr (by norm_num)
  exact ⟨ha, hCan ha⟩

theorem qblt_decide (a b : ℚ) : qblt a b = decide (a < b) := by
  cases hq : qblt a b
  · have hn : ¬ a < b := by
      intro hc
      rw [(qblt_iff a b).mpr hc] at hq
      exact Bool.noConfusion hq
    simp [hn]
  · simp [(qblt_iff a b).mp hq]

theorem qble_decide (a b : ℚ) : qble a b = decide (a ≤ b) := by
  cases hq : qble a b
  · have hn : ¬ a ≤ b := by
      intro hc
      rw [(qble_iff a b).mpr hc] at hq
      exact Bool.noConfusion hq
    simp [hn]
  · simp [(qble_iff a b).mp hq]

theorem mkRat_3_10 : mkRat 3 10 = (3/10 : ℚ) := by
  rw [Rat.mkRat_eq_div]; norm_num

/-- The candidates that survive the confidence cutoff of
`resolve_from_candidates`: each candidate dict scored by `score_match`,
keeping those with confidence strictly above 0.30. -/
def scored_candidates (simF : String → String → ℚ)
    (distF : ℚ → ℚ → ℚ → ℚ → ℚ) (address : Option String)
    (lat lng : Option ℚ) (parcel_id : Option String)
    (cands : List CandDict) : List MatchCandidate :=
  (cands.map (fun cand =>
    score_match simF distF address lat lng parcel_id cand.id
      (optTruthy cand.address) cand.latitude cand.longitude
      (optTruthy cand.apn) cand.match_type)).filter
    (fun m => decide ((3/10 : ℚ) < m.confidence))

/-- C3: `resolve_from_candidates` discards every candidate whose
computed confidence is at most 0.30, classifies only the survivors, and
the returned matches are the survivors in descending confidence order,
truncated to at most 5. -/
theorem resolve_from_candidates_spec (simF : String → String → ℚ)
    (distF : ℚ → ℚ → ℚ → ℚ → ℚ) (address : Option String)
    (lat lng : Option ℚ) (parcel_id : Option String)
    (cands : List CandDict) :
    resolve_from_candidates simF distF address lat lng parcel_id cands =
      classify_matches
        (scored_candidates simF distF address lat lng parcel_id cands) ∧
    (resolve_from_candidates simF distF address lat lng parcel_id
        cands).«matches» =
      (sortByConfDesc
        (scored_candidates simF distF address lat lng parcel_id
          cands)).take 5 ∧
    List.Perm
      (sortByConfDesc
        (scored_candidates simF distF address lat lng parcel_id cands))
      (scored_candidates simF distF address lat lng parcel_id cands) ∧
    ((resolve_from_candidates simF distF address lat lng parcel_id
        cands).«matches»).Pairwise
      (fun a b => b.confidence ≤ a.confidence) ∧
    (∀ m ∈ (resolve_from_candidates simF distF address lat lng parcel_id
        cands).«matches», (3/10 : ℚ) < m.confidence) ∧
    (resolve_from_candidates simF distF address lat lng parcel_id
        cands).«matches».length ≤ 5 := by
  have hres : resolve_from_candidates simF distF address lat lng
      parcel_id cands =
      classify_matches
        (scored_candidates simF distF address lat lng parcel_id cands) := by
    simp only [resolve_from_candidates, scored_candidates, qblt_decide,
      mkRat_3_10]
  have hmat : (classify_matches
      (scored_candidates simF distF address lat lng parcel_id
        cands)).«matches» =
      (sortByConfDesc
        (scored_candidates simF distF address lat lng parcel_id
          cands)).take 5 := by
    cases hS : scored_candidates simF distF address lat lng parcel_id
        cands with
    | nil => rfl
    | cons c rest => rfl
  refine ⟨hres, by rw [hres, hmat], sortByConfDesc_perm _, ?_, ?_, ?_⟩
  · rw [hres, hmat]
    exact List.Pairwise.sublist (List.take_sublist 5 _)
      (sortByConfDesc_sorted _)
  · intro m hm
    rw [hres, hmat] at hm
    have hm2 : m ∈ sortByConfDesc
        (scored_candidates simF distF address lat lng parcel_id cands) :=
      List.take_subset 5 _ hm
    have hm3 : m ∈ scored_candidates simF distF address lat lng
        parcel_id cands := (sortByConfDesc_perm _).mem_iff.mp hm2
    have := (List.mem_filter.mp hm3).2
    exact of_decide_eq_true this
  · rw [hres, hmat]
    exact le_trans (List.length_take_le 5 _) (le_refl 5)

theorem resolve_from_candidates_spec_witness :
    ∀ m ∈ (resolve_from_candidates (fun _ _ => 0) (fun _ _ _ _ => 0)
      none none none none
      [⟨"c1", none, none, none, some "AP", "exact"⟩]).«matches»,
      (3/10 : ℚ) < m.confidence :=
  (resolve_from_candidates_spec (fun _ _ => 0) (fun _ _ _ _ => 0)
    none none none none
    [⟨"c1", none, none, none, some "AP", "exact"⟩]).2.2.2.2.1

theorem mkRat_85_100 : mkRat 85 100 = (0.85 : ℚ) := by
  rw [Rat.mkRat_eq_div]; norm_num

theorem mkRat_95_100 : mkRat 95 100 = (0.95 : ℚ) := by
  rw [Rat.mkRat_eq_div]; norm_num

theorem mkRat_80_100 : mkRat 80 100 = (0.80 : ℚ) := by
  rw [Rat.mkRat_eq_div]; norm_num

/-- Whether the parcel-identifier signal fires: both identifiers
present (non-`None`, non-empty) and string-equal. -/
def parcel_fires (ip apn : Option String) : Bool :=
  match ip, apn with
  | some p, some a => decide (p ≠ "" ∧ a ≠ "" ∧ p = a)
  | _, _ => false

/-- The address-similarity value considered by `score_match`: defined
when both address strings are present (non-`None`, non-empty). -/
def address_sim (simF : String → String → ℚ) (ia ca : Option String) :
    Option ℚ :=
  match ia, ca with
  | some a, some b => if a ≠ "" ∧ b ≠ "" then some (simF a b) else none
  | _, _ => none

/-- Whether the address signal fires: both addresses present and the
similarity strictly exceeds 0.85. -/
def address_fires (simF : String → String → ℚ)
    (ia ca : Option String) : Bool :=
  (address_sim simF ia ca).any (fun s => decide ((0.85 : ℚ) < s))

/-- The geographic distance considered by `score_match`: defined when
all four coordinates are present. -/
def location_distance (distF : ℚ → ℚ → ℚ → ℚ → ℚ)
    (il ilo cla clo : Option ℚ) : Option ℚ :=
  match il, ilo, cla, clo with
  | some x, some y, some z, some w => some (distF x y z w)
  | _, _, _, _ => none

/-- Whether the geographic signal fires: coordinates present and the
distance strictly below 50. -/
def location_fires (distF : ℚ → ℚ → ℚ → ℚ → ℚ)
    (il ilo cla clo : Option ℚ) : Bool :=
  (location_distance distF il ilo cla clo).any
    (fun d => decide (d < 50))

/-- The value the geographic signal contributes when it fires: 0.95
below 10 meters, 0.80 below 50 meters. -/
def location_value (distF : ℚ → ℚ → ℚ → ℚ → ℚ)
    (il ilo cla clo : Option ℚ) : ℚ :=
  match location_distance distF il ilo cla clo with
  | some d => if d < 10 then (0.95 : ℚ) else (0.80 : ℚ)
  | none => 0

theorem sm_parcel_eq (ip apn : Option String) :
    sm_parcel ip apn =
      (cond (parcel_fires ip apn) [1] [],
        cond (parcel_fires ip apn) ["parcel_id"] []) := by
  cases ip with
  | none => cases apn <;> rfl
  | some p =>
    cases apn with
    | none => rfl
    | some a =>
      by_cases h : p ≠ "" ∧ a ≠ "" ∧ p = a <;>
        simp [sm_parcel, parcel_fires, h]

theorem sm_address_eq (simF : String → String → ℚ)
    (ia ca : Option String) :
    sm_address simF ia ca =
      (cond (address_fires simF ia ca)
        [(address_sim simF ia ca).getD 0] [],
        cond (address_fires simF ia ca) ["address"] []) := by
  cases ia with
  | none => cases ca <;> rfl
  | some a =>
    cases ca with
    | none => rfl
    | some b =>
      by_cases h : a ≠ "" ∧ b ≠ ""
      · by_cases hs : (0.85 : ℚ) < simF a b <;>
          simp [sm_address, address_fires, address_sim, h, qblt_decide,
            mkRat_85_100, hs]
      · simp [sm_address, address_fires, address_sim, h]

theorem sm_location_eq (distF : ℚ → ℚ → ℚ → ℚ → ℚ)
    (il ilo cla clo : Option ℚ) :
    sm_location distF il ilo cla clo =
      (cond (location_fires distF il ilo cla clo)
        [location_value distF il ilo cla clo] [],
        cond (location_fires distF il ilo cla clo) ["location"] []) := by
  rcases il with _ | x <;> rcases ilo with _ | y <;>
    rcases cla with _ | z <;> rcases clo with _ | w <;> try rfl
  by_cases h10 : distF x y z w < 10
  · have h50 : distF x y z w < 50 := lt_trans h10 (by norm_num)
    simp [sm_location, location_fires, location_distance,
      location_value, qblt_decide, mkRat_95_100, h10, h50]
  · by_cases h50 : distF x y z w < 50 <;>
      simp [sm_location, location_fires, location_distance,
        location_value, qblt_decide, mkRat_95_100, mkRat_80_100,
        h10, h50]

/-- C2: `score_match` returns the candidate id and match type
unchanged, lists in `matched_fields` exactly the signals that fire
(parcel-id equality; address similarity above 0.85; geographic
distance below 50, worth 0.95 under 10 and 0.80 under 50), and its
confidence is the arithmetic mean of exactly the fired signal values,
0.0 when none fire. -/
theorem score_match_spec (simF : String → String → ℚ)
    (distF : ℚ → ℚ → ℚ → ℚ → ℚ) (ia : Option String)
    (il ilo : Option ℚ) (ip : Option String) (cid : String)
    (ca : Option String) (cla clo : Option ℚ) (apn : Option String)
    (mt : String) :
    score_match simF distF ia il ilo ip cid ca cla clo apn mt =
      ⟨cid,
        if (cond (parcel_fires ip apn) 1 0 : ℕ) +
            (cond (address_fires simF ia ca) 1 0) +
            (cond (location_fires distF il ilo cla clo) 1 0) = 0 then 0
        else
          ((cond (parcel_fires ip apn) (1 : ℚ) 0) +
            (cond (address_fires simF ia ca)
              ((address_sim simF ia ca).getD 0) 0) +
            (cond (location_fires distF il ilo cla clo)
              (location_value distF il ilo cla clo) 0)) /
          (((cond (parcel_fires ip apn) 1 0 : ℕ) +
            (cond (address_fires simF ia ca) 1 0) +
            (cond (location_fires distF il ilo cla clo) 1 0) : ℕ) : ℚ),
        mt,
        (cond (parcel_fires ip apn) ["parcel_id"] []) ++
          (cond (address_fires simF ia ca) ["address"] []) ++
          (cond (location_fires distF il ilo cla clo) ["location"] [])⟩ := by
  simp only [score_match, sm_parcel_eq, sm_address_eq, sm_location_eq]
  cases hp : parcel_fires ip apn <;>
    cases ha : address_fires simF ia ca <;>
    cases hl : location_fires distF il ilo cla clo <;>
    simp [qdiv_eq, qsum_eq, qnat_eq] <;> ring_nf

/-! ### Pipeline error handling and id generation -/

theorem process_record_eq_some_iff
    (normalizeS : String → Except String NormalizedAddress)
    (geocodeS : String → Except String (Option GeocodingResult))
    (resolveS : Option String → Option ℚ → Option ℚ → Option String →
      List CandDict → Except String EntityResolutionResult)
    (generateS : RawPropertyRecord → Option NormalizedAddress →
      Except String String)
    (extractS : RawData → Except String PropertyData)
    (qualityS : PropertyData → Option ℤ → Except String DataQualityScore)
    (raw : RawPropertyRecord) (cands : Option (List CandDict))
    (r : ProcessedRecord) :
    process_record normalizeS geocodeS resolveS generateS extractS
        qualityS raw cands = some r ↔
      process_record_body normalizeS geocodeS resolveS generateS
        extractS qualityS raw cands = .ok r := by
  cases hb : process_record_body normalizeS geocodeS resolveS generateS
      extractS qualityS raw cands with
  | ok r2 => simp [process_record, hb]
  | error e => simp [process_record, hb]

/-- C4: `process_record` never lets a stage exception escape: its
result is `some` exactly when the try-block body succeeded, any body
exception yields the per-record failure result `none` (so no partial
`ProcessedRecord` is emitted), and in particular an exception inside
the address-normalization stage already yields `none`. -/
theorem process_record_failure_isolation
    (normalizeS : String → Except String NormalizedAddress)
    (geocodeS : String → Except String (Option GeocodingResult))
    (resolveS : Option String → Option ℚ → Option ℚ → Option String →
      List CandDict → Except String EntityResolutionResult)
    (generateS : RawPropertyRecord → Option NormalizedAddress →
      Except String String)
    (extractS : RawData → Except String PropertyData)
    (qualityS : PropertyData → Option ℤ → Except String DataQualityScore)
    (raw : RawPropertyRecord) (cands : Option (List CandDict)) :
    (∀ r, process_record normalizeS geocodeS resolveS generateS extractS
        qualityS raw cands = some r ↔
      process_record_body normalizeS geocodeS resolveS generateS
        extractS qualityS raw cands = .ok r) ∧
    (∀ e, process_record_body normalizeS geocodeS resolveS generateS
        extractS qualityS raw cands = .error e →
      process_record normalizeS geocodeS resolveS generateS extractS
        qualityS raw cands = none) ∧
    (∀ s e, raw.address_raw = some s → s ≠ "" →
      normalizeS s = .error e →
      process_record normalizeS geocodeS resolveS generateS extractS
        qualityS raw cands = none) := by
  refine ⟨?_, ?_, ?_⟩
  · intro r
    cases hb : process_record_body normalizeS geocodeS resolveS
        generateS extractS qualityS raw cands with
    | ok r2 => simp [process_record, hb]
    | error e => simp [process_record, hb]
  · intro e he
    simp [process_record, he]
  · intro s e hs hne hn
    have hb : process_record_body normalizeS geocodeS resolveS generateS
        extractS qualityS raw cands = .error e := by
      simp [process_record_body, hs, hne, hn, Except.map]
    simp [process_record, hb]

theorem process_record_failure_isolation_witness :
    process_record (fun _ => .error "boom") (fun _ => .ok none)
      (fun _ _ _ _ _ => .ok ⟨none, 0, [], "keep_separate"⟩)
      (fun _ _ => .ok "id") (fun _ => .ok emptyData)
      (fun _ _ => .ok (calculate_quality_score emptyData none false))
      ⟨"s", "t", "r", 0, emptyRaw, none, some "addr", none, none⟩
      none = none :=
  (process_record_failure_isolation (fun _ => .error "boom")
    (fun _ => .ok none)
    (fun _ _ _ _ _ => .ok ⟨none, 0, [], "keep_separate"⟩)
    (fun _ _ => .ok "id") (fun _ => .ok emptyData)
    (fun _ _ => .ok (calculate_quality_score emptyData none false))
    ⟨"s", "t", "r", 0, emptyRaw, none, some "addr", none, none⟩
    none).2.2 "addr" "boom" rfl (by decide) rfl

theorem calc_uniqueness_no_dup_check (pd : PropertyData)
    (hrs : Option ℤ) :
    (calculate_quality_score pd hrs false).uniqueness = 1 := by
  have h1 : (calculate_quality_score pd hrs false).uniqueness =
      pyRound3 1 := rfl
  rw [h1]
  decide

/-- C10: every record the real pipeline emits carries uniqueness
sub-score exactly 1.0 (and never the 0.95 duplicate-check value), for
every tagger, similarity metric, distance metric, geocoder, hash and
input — in particular also when a candidate set was supplied and
entity resolution ran — because `process_record` calls the quality
scorer without the `duplicate_check` flag. -/
theorem process_record_uniqueness (tagF : String → Option TagMap)
    (simF : String → String → ℚ) (distF : ℚ → ℚ → ℚ → ℚ → ℚ)
    (geocodeS : String → Except String (Option GeocodingResult))
    (md5F : String → String) (raw : RawPropertyRecord)
    (cands : Option (List CandDict)) (r : ProcessedRecord)
    (h : process_record_real tagF simF distF geocodeS md5F raw cands =
      some r) :
    r.quality.uniqueness = 1 ∧ r.quality.uniqueness ≠ (0.95 : ℚ) := by
  suffices h1 : r.quality.uniqueness = 1 by
    refine ⟨h1, ?_⟩
    rw [h1]
    norm_num
  simp only [process_record_real] at h
  rw [process_record_eq_some_iff] at h
  simp only [process_record_body] at h
  repeat' split at h
  all_goals
    first
      | exact Except.noConfusion h
      | (injection h with h2
         subst h2
         exact calc_uniqueness_no_dup_check _ _)

theorem process_record_uniqueness_witness :
    ∃ r, process_record_real (fun _ => none) (fun _ _ => 0)
      (fun _ _ _ _ => 0) (fun _ => .ok none)
      (fun _ => "0123456789abcdef0123456789abcdef")
      ⟨"regrid", "county", "r1", 1, emptyRaw, some "APN-7", none,
        some 30, some (-97)⟩
      (some [⟨"c9", none, none, none, some "APN-7", "exact"⟩]) =
        some r ∧
      r.quality.uniqueness = 1 := by
  obtain ⟨r, hr⟩ := Option.isSome_iff_exists.mp
    (by decide :
      (process_record_real (fun _ => none) (fun _ _ => 0)
        (fun _ _ _ _ => 0) (fun _ => .ok none)
        (fun _ => "0123456789abcdef0123456789abcdef")
        ⟨"regrid", "county", "r1", 1, emptyRaw, some "APN-7", none,
          some 30, some (-97)⟩
        (some [⟨"c9", none, none, none, some "APN-7", "exact"⟩])).isSome
        = true)
  exact ⟨r, hr,
    (process_record_uniqueness (fun _ => none) (fun _ _ => 0)
      (fun _ _ _ _ => 0) (fun _ => .ok none)
      (fun _ => "0123456789abcdef0123456789abcdef")
      ⟨"regrid", "county", "r1", 1, emptyRaw, some "APN-7", none,
        some 30, some (-97)⟩
      (some [⟨"c9", none, none, none, some "APN-7", "exact"⟩]) r hr).1⟩

/-- C5 counterexample: a candidate dict with a missing `id` (so its
`property_id` coerces to `""`) but a matching APN produces an
`auto_merge` with canonical id `""`; the pipeline then emits the
freshly generated id `"XX-0123456789"` rather than the merge canonical
id, because `canonical_id or generate_property_id(...)` treats the
empty canonical id as falsy. -/
theorem pipeline_merge_id_cex :
    (process_record_real (fun _ => none) (fun _ _ => 0)
        (fun _ _ _ _ => 0) (fun _ => .ok none)
        (fun _ => "0123456789abcdef0123456789abcdef")
        ⟨"sys", "county", "r1", 1, emptyRaw, some "APN-7", none,
          some 30, some (-97)⟩
        (some [⟨"", none, none, none, some "APN-7", "exact"⟩])).map
        (fun r => (r.canonical_id, r.property_id)) =
      some (some "", "XX-0123456789") ∧
    (resolve_from_candidates (fun _ _ => 0) (fun _ _ _ _ => 0) none
        (some 30) (some (-97)) (some "APN-7")
        [⟨"", none, none, none, some "APN-7", "exact"⟩]).action =
      "auto_merge" ∧
    ("XX-0123456789" : String) ≠ "" := by
  refine ⟨by decide, by decide, by decide⟩

/-- The claim's `{state-or-"XX"}` prefix selector: the address's state
code when the address is present and its state is present and
non-empty (Python truthiness of `address and address.state`), and
`"XX"` otherwise. -/
def gpid_state (address : Option NormalizedAddress) : String :=
  match address.bind (fun a => a.state) with
  | some s => if s = "" then "XX" else s
  | none => "XX"

/-- C5 (amended): the generated id is
`{state-or-"XX"}-{10-char uppercased hash prefix}`, where the prefix is
exactly the address's non-empty state when one is present and `"XX"`
otherwise (the `gpid_state` selector, pinned field-free by the first
conjunct), and the hash input is the parcel id when truthy and
`{source_system}:{source_record_id}` otherwise; generation is
deterministic in those inputs; and the pipeline's final `property_id`
is the merge canonical id when an `auto_merge` produced a non-empty
one, and the freshly generated id when no merge occurred or the
canonical id was the empty string. -/
theorem generate_property_id_spec (md5F : String → String)
    (hlen : ∀ s, sLen (md5F s) = 32) :
    (gpid_state none = "XX" ∧
      (∀ a, a.state = none → gpid_state (some a) = "XX") ∧
      (∀ a, a.state = some "" → gpid_state (some a) = "XX") ∧
      (∀ a s, a.state = some s → s ≠ "" → gpid_state (some a) = s)) ∧
    (∀ raw address, ∃ hi,
      generate_property_id md5F raw address =
        gpid_state address ++ "-" ++ pyUpper (sTake (md5F hi) 10) ∧
      sLen (pyUpper (sTake (md5F hi) 10)) = 10 ∧
      ((∃ p, raw.parcel_id = some p ∧ p ≠ "" ∧ hi = p) ∨
        ((raw.parcel_id = none ∨ raw.parcel_id = some "") ∧
          hi = raw.source_system ++ ":" ++ raw.source_record_id))) ∧
    (∀ raw1 raw2 a1 a2,
      raw1.parcel_id = raw2.parcel_id →
      raw1.source_system = raw2.source_system →
      raw1.source_record_id = raw2.source_record_id →
      a1.bind (fun a => a.state) = a2.bind (fun a => a.state) →
      generate_property_id md5F raw1 a1 =
        generate_property_id md5F raw2 a2) ∧
    (∀ tagF simF distF geocodeS raw cands r,
      process_record_real tagF simF distF geocodeS md5F raw cands =
        some r →
      (r.canonical_id = none →
        r.property_id = generate_property_id md5F raw r.address) ∧
      (∀ c, r.canonical_id = some c → c ≠ "" → r.property_id = c) ∧
      (∀ c, r.canonical_id = some c → c = "" →
        r.property_id = generate_property_id md5F raw r.address)) := by
  have hsuf : ∀ hi, sLen (pyUpper (sTake (md5F hi) 10)) = 10 := by
    intro hi
    have h32 : (md5F hi).data.length = 32 := hlen hi
    simp [sLen, pyUpper, sTake, h32]
  refine ⟨⟨rfl, ?_, ?_, ?_⟩, ?_, ?_, ?_⟩
  · intro a ha
    simp [gpid_state, ha]
  · intro a ha
    simp [gpid_state, ha]
  · intro a s ha hs
    simp [gpid_state, ha, hs]
  · intro raw address
    rcases address with _ | a
    · rcases hp : raw.parcel_id with _ | p
      · exact ⟨raw.source_system ++ ":" ++ raw.source_record_id,
          by simp [generate_property_id, gpid_state, hp], hsuf _,
          Or.inr ⟨Or.inl rfl, rfl⟩⟩
      · by_cases hpe : p = ""
        · subst hpe
          exact ⟨raw.source_system ++ ":" ++ raw.source_record_id,
            by simp [generate_property_id, gpid_state, hp], hsuf _,
            Or.inr ⟨Or.inr rfl, rfl⟩⟩
        · exact ⟨p,
            by simp [generate_property_id, gpid_state, hp, hpe],
            hsuf _, Or.inl ⟨p, rfl, hpe, rfl⟩⟩
    · rcases hsa : a.state with _ | st
      · rcases hp : raw.parcel_id with _ | p
        · exact ⟨raw.source_system ++ ":" ++ raw.source_record_id,
            by simp [generate_property_id, gpid_state, hp, hsa],
            hsuf _, Or.inr ⟨Or.inl rfl, rfl⟩⟩
        · by_cases hpe : p = ""
          · subst hpe
            exact ⟨raw.source_system ++ ":" ++ raw.source_record_id,
              by simp [generate_property_id, gpid_state, hp, hsa],
              hsuf _, Or.inr ⟨Or.inr rfl, rfl⟩⟩
          · exact ⟨p,
              by simp [generate_property_id, gpid_state, hp, hpe, hsa],
              hsuf _, Or.inl ⟨p, rfl, hpe, rfl⟩⟩
      · by_cases hse : st = ""
        · subst hse
          rcases hp : raw.parcel_id with _ | p
          · exact ⟨raw.source_system ++ ":" ++ raw.source_record_id,
              by simp [generate_property_id, gpid_state, hp, hsa],
              hsuf _, Or.inr ⟨Or.inl rfl, rfl⟩⟩
          · by_cases hpe : p = ""
            · subst hpe
              exact ⟨raw.source_system ++ ":" ++ raw.source_record_id,
                by simp [generate_property_id, gpid_state, hp, hsa],
                hsuf _, Or.inr ⟨Or.inr rfl, rfl⟩⟩
            · exact ⟨p,
                by simp [generate_property_id, gpid_state, hp, hpe,
                  hsa],
                hsuf _, Or.inl ⟨p, rfl, hpe, rfl⟩⟩
        · rcases hp : raw.parcel_id with _ | p
          · exact ⟨raw.source_system ++ ":" ++ raw.source_record_id,
              by simp [generate_property_id, gpid_state, hp, hsa, hse],
              hsuf _, Or.inr ⟨Or.inl rfl, rfl⟩⟩
          · by_cases hpe : p = ""
            · subst hpe
              exact ⟨raw.source_system ++ ":" ++ raw.source_record_id,
                by simp [generate_property_id, gpid_state, hp, hsa,
                  hse],
                hsuf _, Or.inr ⟨Or.inr rfl, rfl⟩⟩
            · exact ⟨p,
                by simp [generate_property_id, gpid_state, hp, hpe,
                  hsa, hse],
                hsuf _, Or.inl ⟨p, rfl, hpe, rfl⟩⟩
  · intro raw1 raw2 a1 a2 h1 h2 h3 h4
    simp only [generate_property_id, h1, h2, h3]
    rcases a1 with _ | a1 <;> rcases a2 with _ | a2 <;>
      simp only [Option.bind] at h4
    · rfl
    · have hs2 : a2.state = none := h4.symm
      simp [hs2]
    · have hs1 : a1.state = none := h4
      simp [hs1]
    · simp [h4]
  · intro tagF simF distF geocodeS raw cands r h
    simp only [process_record_real] at h
    rw [process_record_eq_some_iff] at h
    simp only [process_record_body] at h
    repeat' split at h
    all_goals
      first
        | exact Except.noConfusion h
        | (injection h with h2
           subst h2
           refine ⟨fun hc => ?_, fun c hc hcne => ?_,
             fun c hc hce => ?_⟩ <;> simp_all)

theorem generate_property_id_spec_witness :
    generate_property_id (fun _ => "0123456789abcdef0123456789abcdef")
        ⟨"sys", "county", "r1", 0, emptyRaw, some "APN-7", none, none,
          none⟩
        (some ⟨none, none, none, none, none, none, none, some "TX",
          none, none, none, none, 0⟩) = "TX-0123456789" := by
  obtain ⟨hi, heq, hl, hchar⟩ :=
    (generate_property_id_spec
      (fun _ => "0123456789abcdef0123456789abcdef")
      (fun _ => by
        show sLen "0123456789abcdef0123456789abcdef" = 32
        decide)).2.1
      ⟨"sys", "county", "r1", 0, emptyRaw, some "APN-7", none, none,
        none⟩
      (some ⟨none, none, none, none, none, none, none, some "TX",
        none, none, none, none, 0⟩)
  rw [heq]
  show gpid_state (some ⟨none, none, none, none, none, none, none,
      some "TX", none, none, none, none, 0⟩) ++ "-" ++
      pyUpper (sTake "0123456789abcdef0123456789abcdef" 10) =
    "TX-0123456789"
  decide

/-! ### Quality-score formula (C6) -/

theorem mkRat_25_100 : mkRat 25 100 = (0.25 : ℚ) := by
  rw [Rat.mkRat_eq_div]; norm_num

theorem mkRat_20_100 : mkRat 20 100 = (0.20 : ℚ) := by
  rw [Rat.mkRat_eq_div]; norm_num

theorem mkRat_15_100 : mkRat 15 100 = (0.15 : ℚ) := by
  rw [Rat.mkRat_eq_div]; norm_num

theorem mkRat_10_100 : mkRat 10 100 = (0.10 : ℚ) := by
  rw [Rat.mkRat_eq_div]; norm_num

theorem mkRat_5_100 : mkRat 5 100 = (0.05 : ℚ) := by
  rw [Rat.mkRat_eq_div]; norm_num

theorem mkRat_70_100 : mkRat 70 100 = (0.70 : ℚ) := by
  rw [Rat.mkRat_eq_div]; norm_num

/-- The documented weighted combination of the six quality
sub-scores. -/
def quality_weighted_sum (d : PropertyData) (age : Option ℤ)
    (dup : Bool) : ℚ :=
  0.25 * _score_completeness d + 0.25 * _score_accuracy d +
    0.20 * _score_consistency d + 0.15 * (_score_timeliness age).1 +
    0.10 * _score_validity + 0.05 * (if dup then (0.95 : ℚ) else 1)

theorem calculate_quality_score_eq (d : PropertyData) (age : Option ℤ)
    (dup : Bool) :
    calculate_quality_score d age dup =
      ⟨pyRound3 (quality_weighted_sum d age dup),
        pyRound3 (_score_completeness d), pyRound3 (_score_accuracy d),
        pyRound3 (_score_consistency d),
        pyRound3 (_score_timeliness age).1, pyRound3 _score_validity,
        pyRound3 (if dup then (0.95 : ℚ) else 1),
        (_score_timeliness age).2,
        if (0.85 : ℚ) ≤ quality_weighted_sum d age dup then "high"
        else if (0.70 : ℚ) ≤ quality_weighted_sum d age dup then
          "medium"
        else "low"⟩ := by
  have hW : qadd (qadd (qadd (qadd (qadd
      (qmul (_score_completeness d) (mkRat 25 100))
      (qmul (_score_accuracy d) (mkRat 25 100)))
      (qmul (_score_consistency d) (mkRat 20 100)))
      (qmul (_score_timeliness age).1 (mkRat 15 100)))
      (qmul _score_validity (mkRat 10 100)))
      (qmul (if dup then mkRat 95 100 else 1) (mkRat 5 100)) =
      quality_weighted_sum d age dup := by
    simp only [qadd_eq, qmul_eq, mkRat_25_100, mkRat_20_100,
      mkRat_15_100, mkRat_10_100, mkRat_5_100, mkRat_95_100,
      quality_weighted_sum]
    ring
  simp only [calculate_quality_score, hW]
  simp only [mkRat_95_100, qble_decide, mkRat_85_100, mkRat_70_100,
    decide_eq_true_eq]

/-- C6: the overall data quality score is
0.25 completeness + 0.25 accuracy + 0.20 consistency +
0.15 timeliness + 0.10 validity + 0.05 uniqueness, each component and
the overall rounded (half-even) to 3 decimals, and the confidence
label is high when the overall (pre-rounding) score is at least 0.85,
medium when it is in [0.70, 0.85), and low otherwise. -/
theorem calculate_quality_score_spec (d : PropertyData)
    (age : Option ℤ) (dup : Bool) :
    (calculate_quality_score d age dup).score =
      pyRound3 (quality_weighted_sum d age dup) ∧
    (calculate_quality_score d age dup).completeness =
      pyRound3 (_score_completeness d) ∧
    (calculate_quality_score d age dup).accuracy =
      pyRound3 (_score_accuracy d) ∧
    (calculate_quality_score d age dup).consistency =
      pyRound3 (_score_consistency d) ∧
    (calculate_quality_score d age dup).timeliness =
      pyRound3 (_score_timeliness age).1 ∧
    (calculate_quality_score d age dup).validity =
      pyRound3 _score_validity ∧
    (calculate_quality_score d age dup).uniqueness =
      pyRound3 (if dup then (0.95 : ℚ) else 1) ∧
    ((calculate_quality_score d age dup).confidence = "high" ↔
      (0.85 : ℚ) ≤ quality_weighted_sum d age dup) ∧
    ((calculate_quality_score d age dup).confidence = "medium" ↔
      ((0.70 : ℚ) ≤ quality_weighted_sum d age dup ∧
        quality_weighted_sum d age dup < 0.85)) ∧
    ((calculate_quality_score d age dup).confidence = "low" ↔
      quality_weighted_sum d age dup < 0.70) := by
  rw [calculate_quality_score_eq]
  refine ⟨rfl, rfl, rfl, rfl, rfl, rfl, rfl, ?_, ?_, ?_⟩
  · by_cases h85 : (0.85 : ℚ) ≤ quality_weighted_sum d age dup
    · simp [h85]
    · by_cases h70 : (0.70 : ℚ) ≤ quality_weighted_sum d age dup <;>
        simp [h85, h70]
  · by_cases h85 : (0.85 : ℚ) ≤ quality_weighted_sum d age dup
    · simp only [if_pos h85]
      constructor
      · intro h; exact absurd h (by decide)
      · rintro ⟨_, hlt⟩; linarith
    · by_cases h70 : (0.70 : ℚ) ≤ quality_weighted_sum d age dup
      · simp only [if_neg h85, if_pos h70]
        constructor
        · intro _; exact ⟨h70, lt_of_not_le h85⟩
        · intro _; trivial
      · simp only [if_neg h85, if_neg h70]
        constructor
        · intro h; exact absurd h (by decide)
        · rintro ⟨hge, _⟩; exact absurd hge h70
  · by_cases h85 : (0.85 : ℚ) ≤ quality_weighted_sum d age dup
    · simp only [if_pos h85]
      constructor
      · intro h; exact absurd h (by decide)
      · intro hlt; linarith
    · by_cases h70 : (0.70 : ℚ) ≤ quality_weighted_sum d age dup
      · simp only [if_neg h85, if_pos h70]
        constructor
        · intro h; exact absurd h (by decide)
        · intro hlt; exact absurd h70 (not_le.mpr hlt)
      · simp only [if_neg h85, if_neg h70]
        constructor
        · intro _; exact lt_of_not_le h70
        · intro _; trivial

/-! ### Address normalizer: degradation (C9) and ZIP handling (C8) -/

/-- C9: empty or whitespace-only input, and any input whose structural
tagging fails (`usaddress.RepeatedLabelError`, modelled by
`tagged = none`), yield the all-null `NormalizedAddress` with
confidence 0.0; `normalize` is a total function, so no error ever
reaches the caller. -/
theorem normalize_degraded (raw : String) (tagged : Option TagMap)
    (h : pyStrip raw = "" ∨ tagged = none) :
    normalize raw tagged = _empty_address ∧
    _empty_address =
      ⟨none, none, none, none, none, none, none, none, none, none,
        none, none, 0⟩ := by
  refine ⟨?_, rfl⟩
  rcases h with h | rfl
  · simp [normalize, h]
  · by_cases h2 : pyStrip raw = "" <;> simp [normalize, h2]

theorem normalize_degraded_witness :
    normalize "   " (some emptyTag) = _empty_address ∧
    normalize "123 Main St" none = _empty_address :=
  ⟨(normalize_degraded "   " (some emptyTag) (Or.inl (by decide))).1,
    (normalize_degraded "123 Main St" none (Or.inr rfl)).1⟩

/-- The ZIP fields of a successfully tagged, non-blank address. -/
theorem normalize_zip_fields (raw : String) (p : TagMap)
    (h : ¬ pyStrip raw = "") :
    (normalize raw (some p)).zip_code =
      (if 5 ≤ sLen (pyStrip p.ZipCode) ∧
          sAll (sTake (pyStrip p.ZipCode) 5) Char.isDigit then
        some (sTake (pyStrip p.ZipCode) 5)
      else none) ∧
    (normalize raw (some p)).zip4 =
      (if 5 < sLen (pyStrip p.ZipCode) then
        some (sTake (sDrop (pyStrip p.ZipCode) 6) 4)
      else none) := by
  constructor <;> simp [normalize, h]

/-- C8 counterexample: for the tagged ZIP token `"787011234"` the
trailing four characters are the digits `"1234"`, but `normalize`
records `zip4 = "234"` (the slice `[6:10]`), so the trailing 4 digits
are not captured. -/
theorem normalize_zip4_cex :
    sDrop "787011234" 5 = "1234" ∧
    sAll (sDrop "787011234" 5) Char.isDigit = true ∧
    (normalize "787011234"
      (some ⟨"", "", "", "", "", "", "", "", "", "", "",
        "787011234"⟩)).zip4 = some "234" ∧
    (normalize "787011234"
      (some ⟨"", "", "", "", "", "", "", "", "", "", "",
        "787011234"⟩)).zip4 ≠ some "1234" := by
  refine ⟨by decide, by decide, by decide, by decide⟩

/-- C8 (amended): a non-null `zip_code` is always the first 5
characters of the stripped ZIP token and those are all digits; `zip4`
is the slice `[6:10]` of the token whenever the token is longer than
5 characters (regardless of content); consequently for a standard
`DDDDD<sep>DDDD` ZIP+4 token the 5-digit ZIP and the trailing 4 digits
are captured exactly. -/
theorem normalize_zip_spec (raw : String) (p : TagMap)
    (h : pyStrip raw ≠ "") :
    (∀ s, (normalize raw (some p)).zip_code = some s →
      5 ≤ sLen (pyStrip p.ZipCode) ∧ s = sTake (pyStrip p.ZipCode) 5 ∧
        sAll s Char.isDigit = true) ∧
    ((normalize raw (some p)).zip4 =
      if 5 < sLen (pyStrip p.ZipCode) then
        some (sTake (sDrop (pyStrip p.ZipCode) 6) 4)
      else none) ∧
    (∀ z5 sep z4, pyStrip p.ZipCode = z5 ++ sep ++ z4 →
      sLen z5 = 5 → sLen sep = 1 → sLen z4 = 4 →
      sAll z5 Char.isDigit = true →
      (normalize raw (some p)).zip_code = some z5 ∧
        (normalize raw (some p)).zip4 = some z4) := by
  obtain ⟨hzc, hz4⟩ := normalize_zip_fields raw p h
  refine ⟨?_, hz4, ?_⟩
  · intro s hs
    rw [hzc] at hs
    by_cases hcond : 5 ≤ sLen (pyStrip p.ZipCode) ∧
        sAll (sTake (pyStrip p.ZipCode) 5) Char.isDigit = true
    · rw [if_pos hcond] at hs
      simp only [Option.some.injEq] at hs
      subst hs
      exact ⟨hcond.1, rfl, hcond.2⟩
    · rw [if_neg hcond] at hs
      exact absurd hs (by simp)
  · intro z5 sep z4 hz hl5 hl1 hl4 hdig
    have hd5 : z5.data.length = 5 := hl5
    have hd1 : sep.data.length = 1 := hl1
    have hd4 : z4.data.length = 4 := hl4
    have hzdata : (pyStrip p.ZipCode).data =
        (z5.data ++ sep.data) ++ z4.data := by
      rw [hz, String.data_append, String.data_append]
    have hlen : sLen (pyStrip p.ZipCode) = 10 := by
      simp [sLen, hzdata, hd5, hd1, hd4]
    have htake : sTake (pyStrip p.ZipCode) 5 = z5 := by
      show (⟨(pyStrip p.ZipCode).data.take 5⟩ : String) = z5
      rw [hzdata, List.append_assoc, ← hd5,
        List.take_left z5.data (sep.data ++ z4.data)]
    have hdrop : sTake (sDrop (pyStrip p.ZipCode) 6) 4 = z4 := by
      show (⟨((pyStrip p.ZipCode).data.drop 6).take 4⟩ : String) = z4
      have h6 : (z5.data ++ sep.data).length = 6 := by simp [hd5, hd1]
      rw [hzdata, ← h6, List.drop_left (z5.data ++ sep.data) z4.data,
        ← hd4]
      exact congrArg _ (List.take_length z4.data)
    constructor
    · rw [hzc, if_pos, htake]
      refine ⟨by rw [hlen]; norm_num, ?_⟩
      rw [htake]
      exact hdig
    · rw [hz4, if_pos (by rw [hlen]; norm_num), hdrop]

theorem normalize_zip_spec_witness :
    (normalize "78701-1234 x"
      (some ⟨"", "", "", "", "", "", "", "", "", "", "",
        "78701-1234"⟩)).zip_code = some "78701" ∧
    (normalize "78701-1234 x"
      (some ⟨"", "", "", "", "", "", "", "", "", "", "",
        "78701-1234"⟩)).zip4 = some "1234" :=
  (normalize_zip_spec "78701-1234 x"
    ⟨"", "", "", "", "", "", "", "", "", "", "", "78701-1234"⟩
    (by decide)).2.2 "78701" "-" "1234" (by decide) (by decide)
    (by decide) (by decide) (by decide)

/-! ### Confidence bounds (C7) -/

theorem mean_bounds (l : List ℚ) (hne : l ≠ [])
    (h : ∀ x ∈ l, 0 ≤ x ∧ x ≤ 1) :
    0 ≤ l.sum / (l.length : ℚ) ∧ l.sum / (l.length : ℚ) ≤ 1 := by
  have hlen : 0 < (l.length : ℚ) := by
    exact_mod_cast List.length_pos.mpr hne
  have hsum0 : 0 ≤ l.sum := List.sum_nonneg (fun x hx => (h x hx).1)
  have hsum1 : l.sum ≤ (l.length : ℚ) := by
    have := List.sum_le_card_nsmul l 1 (fun x hx => (h x hx).2)
    simpa using this
  exact ⟨div_nonneg hsum0 hlen.le, (div_le_one hlen).mpr hsum1⟩

theorem addr_confidence_bounds (a b c d e : Bool) :
    0 ≤ addr_confidence a b c d e ∧ addr_confidence a b c d e ≤ 1 := by
  simp only [addr_confidence, qadd_eq, Rat.mkRat_eq_div]
  constructor <;> split_ifs <;> norm_num

theorem normalize_confidence_bounds (raw : String)
    (tagged : Option TagMap) :
    0 ≤ (normalize raw tagged).confidence ∧
      (normalize raw tagged).confidence ≤ 1 := by
  by_cases h : pyStrip raw = ""
  · have he : normalize raw tagged = _empty_address := by
      simp [normalize, h]
    rw [he]
    constructor <;> norm_num [_empty_address]
  · cases tagged with
    | none =>
      have he : normalize raw none = _empty_address := by
        simp [normalize, h]
      rw [he]
      constructor <;> norm_num [_empty_address]
    | some p =>
      constructor
      · simp only [normalize, if_neg h]
        exact (addr_confidence_bounds _ _ _ _ _).1
      · simp only [normalize, if_neg h]
        exact (addr_confidence_bounds _ _ _ _ _).2

theorem address_sim_getD_bounds (simF : String → String → ℚ)
    (hsim : ∀ a b, 0 ≤ simF a b ∧ simF a b ≤ 1)
    (ia ca : Option String) :
    0 ≤ (address_sim simF ia ca).getD 0 ∧
      (address_sim simF ia ca).getD 0 ≤ 1 := by
  rcases ia with _ | a
  · constructor <;> norm_num [address_sim]
  · rcases ca with _ | b
    · constructor <;> norm_num [address_sim]
    · by_cases hc : a ≠ "" ∧ b ≠ ""
      · simpa [address_sim, hc] using hsim a b
      · constructor <;> norm_num [address_sim, hc]

theorem location_value_bounds (distF : ℚ → ℚ → ℚ → ℚ → ℚ)
    (il ilo cla clo : Option ℚ) :
    0 ≤ location_value distF il ilo cla clo ∧
      location_value distF il ilo cla clo ≤ 1 := by
  rcases il with _ | x <;> rcases ilo with _ | y <;>
    rcases cla with _ | z <;> rcases clo with _ | w <;>
    constructor <;>
    simp only [location_value, location_distance] <;>
    (try split_ifs) <;> norm_num

theorem score_match_confidence_bounds (simF : String → String → ℚ)
    (distF : ℚ → ℚ → ℚ → ℚ → ℚ)
    (hsim : ∀ a b, 0 ≤ simF a b ∧ simF a b ≤ 1)
    (ia : Option String) (il ilo : Option ℚ) (ip : Option String)
    (cid : String) (ca : Option String) (cla clo : Option ℚ)
    (apn : Option String) (mt : String) :
    0 ≤ (score_match simF distF ia il ilo ip cid ca cla clo apn
        mt).confidence ∧
      (score_match simF distF ia il ilo ip cid ca cla clo apn
        mt).confidence ≤ 1 := by
  have hel : ∀ x ∈ (sm_parcel ip apn).1 ++ (sm_address simF ia ca).1 ++
      (sm_location distF il ilo cla clo).1, 0 ≤ x ∧ x ≤ 1 := by
    intro x hx
    rcases List.mem_append.mp hx with hx2 | hx2
    · rcases List.mem_append.mp hx2 with hx3 | hx3
      · rw [sm_parcel_eq] at hx3
        cases hb : parcel_fires ip apn <;> rw [hb] at hx3 <;>
          simp at hx3
        subst hx3
        constructor <;> norm_num
      · rw [sm_address_eq] at hx3
        cases hb : address_fires simF ia ca <;> rw [hb] at hx3 <;>
          simp at hx3
        subst hx3
        exact address_sim_getD_bounds simF hsim ia ca
    · rw [sm_location_eq] at hx2
      cases hb : location_fires distF il ilo cla clo <;>
        rw [hb] at hx2 <;> simp at hx2
      subst hx2
      exact location_value_bounds distF il ilo cla clo
  have hconf : (score_match simF distF ia il ilo ip cid ca cla clo apn
      mt).confidence =
      if ((sm_parcel ip apn).1 ++ (sm_address simF ia ca).1 ++
          (sm_location distF il ilo cla clo).1) ≠ [] then
        qdiv (qsum ((sm_parcel ip apn).1 ++ (sm_address simF ia ca).1 ++
          (sm_location distF il ilo cla clo).1))
          (qnat ((sm_parcel ip apn).1 ++ (sm_address simF ia ca).1 ++
            (sm_location distF il ilo cla clo).1).length)
      else 0 := rfl
  rw [hconf]
  by_cases hne : ((sm_parcel ip apn).1 ++ (sm_address simF ia ca).1 ++
      (sm_location distF il ilo cla clo).1) = []
  · rw [if_neg (by simpa using hne)]
    constructor <;> norm_num
  · rw [if_pos hne, qdiv_eq, qsum_eq, qnat_eq]
    exact mean_bounds _ hne hel

theorem classify_matches_bounds (cs : List MatchCandidate)
    (h : ∀ c ∈ cs, 0 ≤ c.confidence ∧ c.confidence ≤ 1) :
    (0 ≤ (classify_matches cs).confidence ∧
      (classify_matches cs).confidence ≤ 1) ∧
    ∀ m ∈ (classify_matches cs).«matches»,
      0 ≤ m.confidence ∧ m.confidence ≤ 1 := by
  cases cs with
  | nil =>
    constructor
    · constructor <;> norm_num [classify_matches]
    · intro m hm
      simp [classify_matches] at hm
  | cons c rest =>
    obtain ⟨b, t, hs, hmem, hmax⟩ :=
      sortByConfDesc_head_max (c :: rest) (by simp)
    rw [classify_matches_char (c :: rest) b t hs (by simp)]
    constructor
    · exact h b hmem
    · intro m hm
      have hm2 : m ∈ b :: t := List.take_subset 5 _ hm
      rw [← hs] at hm2
      exact h m ((sortByConfDesc_perm _).mem_iff.mp hm2)

theorem resolve_from_candidates_bounds (simF : String → String → ℚ)
    (distF : ℚ → ℚ → ℚ → ℚ → ℚ)
    (hsim : ∀ a b, 0 ≤ simF a b ∧ simF a b ≤ 1)
    (address : Option String) (lat lng : Option ℚ)
    (parcel_id : Option String) (cands : List CandDict) :
    (0 ≤ (resolve_from_candidates simF distF address lat lng parcel_id
        cands).confidence ∧
      (resolve_from_candidates simF distF address lat lng parcel_id
        cands).confidence ≤ 1) ∧
    ∀ m ∈ (resolve_from_candidates simF distF address lat lng parcel_id
        cands).«matches», 0 ≤ m.confidence ∧ m.confidence ≤ 1 := by
  have hscored : ∀ c ∈ (cands.map (fun cand =>
      score_match simF distF address lat lng parcel_id cand.id
        (optTruthy cand.address) cand.latitude cand.longitude
        (optTruthy cand.apn) cand.match_type)).filter
      (fun m => qblt (mkRat 3 10) m.confidence),
      0 ≤ c.confidence ∧ c.confidence ≤ 1 := by
    intro c hc
    obtain ⟨cand, _, rfl⟩ := List.mem_map.mp (List.mem_filter.mp hc).1
    exact score_match_confidence_bounds simF distF hsim _ _ _ _ _ _ _ _
      _ _
  exact classify_matches_bounds _ hscored

theorem _score_completeness_bounds (d : PropertyData) :
    0 ≤ _score_completeness d ∧ _score_completeness d ≤ 1 := by
  have h1 : (requiredSlots d).countP (fun o => o.isSome) ≤ 8 := by
    have hle : (requiredSlots d).countP (fun o => o.isSome) ≤
        (requiredSlots d).length := List.countP_le_length _
    have hlen : (requiredSlots d).length = 8 := rfl
    omega
  have h2 : (optionalSlots d).countP (fun o => o.isSome) ≤ 8 := by
    have hle : (optionalSlots d).countP (fun o => o.isSome) ≤
        (optionalSlots d).length := List.countP_le_length _
    have hlen : (optionalSlots d).length = 8 := rfl
    omega
  have hx0 : (0:ℚ) ≤
      (((requiredSlots d).countP (fun o => o.isSome) : ℕ) : ℚ) :=
    Nat.cast_nonneg _
  have hx8 : (((requiredSlots d).countP (fun o => o.isSome) : ℕ) : ℚ) ≤
      8 := by exact_mod_cast h1
  have hy0 : (0:ℚ) ≤
      (((optionalSlots d).countP (fun o => o.isSome) : ℕ) : ℚ) :=
    Nat.cast_nonneg _
  have hy8 : (((optionalSlots d).countP (fun o => o.isSome) : ℕ) : ℚ) ≤
      8 := by exact_mod_cast h2
  simp only [_score_completeness, qadd_eq, qmul_eq, qdiv_eq, qnat_eq,
    Rat.mkRat_eq_div]
  push_cast
  constructor <;> nlinarith [hx0, hx8, hy0, hy8]

theorem accuracy_checks_bounds (d : PropertyData) :
    ∀ x ∈ accuracy_checks d, 0 ≤ x ∧ x ≤ 1 := by
  intro x hx
  simp only [accuracy_checks] at hx
  rcases List.mem_append.mp hx with h3 | h4
  · rcases List.mem_append.mp h3 with h2 | h3b
    · rcases List.mem_append.mp h2 with h1 | h2b
      · rcases hz : d.zip_code.bind as_str with _ | s
        · rw [hz] at h1; simp at h1
        · rw [hz] at h1
          by_cases hs : s = ""
          · subst hs; simp at h1
          · simp [hs] at h1
            subst h1
            constructor <;> split_ifs <;>
              norm_num [Rat.mkRat_eq_div]
      · rcases hz : d.state.bind as_str with _ | s
        · rw [hz] at h2b; simp at h2b
        · rw [hz] at h2b
          by_cases hs : s = ""
          · subst hs; simp at h2b
          · simp [hs] at h2b
            subst h2b
            constructor <;> split_ifs <;>
              norm_num [Rat.mkRat_eq_div]
    · rcases hy : d.year_built.bind as_int with _ | y
      · rw [hy] at h3b; simp at h3b
      · rw [hy] at h3b
        simp at h3b
        subst h3b
        constructor <;> split_ifs <;> norm_num [Rat.mkRat_eq_div]
  · rcases hla : d.latitude.bind as_num with _ | la
    · rw [hla] at h4; simp at h4
    · rcases hlo : d.longitude.bind as_num with _ | lo
      · rw [hla, hlo] at h4; simp at h4
      · rw [hla, hlo] at h4
        simp at h4
        subst h4
        constructor <;> split_ifs <;> norm_num

theorem consistency_checks_bounds (d : PropertyData) :
    ∀ x ∈ consistency_checks d, 0 ≤ x ∧ x ≤ 1 := by
  intro x hx
  simp only [consistency_checks] at hx
  rcases List.mem_append.mp hx with h1 | h2
  · rcases hl : d.lot_sqft.bind as_num with _ | l
    · rw [hl] at h1; simp at h1
    · rcases hb : d.sqft.bind as_num with _ | b
      · rw [hl, hb] at h1; simp at h1
      · rw [hl, hb] at h1
        by_cases hp : (qblt 0 l && qblt 0 b) = true
        · simp only [hp, if_true] at h1
          simp at h1
          subst h1
          constructor <;> split_ifs <;> norm_num [Rat.mkRat_eq_div]
        · simp [hp] at h1
  · rcases ha : d.assessed_value.bind as_num with _ | a
    · rw [ha] at h2; simp at h2
    · rcases hb : d.sqft.bind as_num with _ | b
      · rw [ha, hb] at h2; simp at h2
      · rw [ha, hb] at h2
        by_cases hp : (qblt 0 a && qblt 0 b) = true
        · simp only [hp, if_true] at h2
          simp at h2
          subst h2
          constructor <;> split_ifs <;> norm_num [Rat.mkRat_eq_div]
        · simp [hp] at h2

theorem _score_accuracy_bounds (d : PropertyData) :
    0 ≤ _score_accuracy d ∧ _score_accuracy d ≤ 1 := by
  simp only [_score_accuracy]
  by_cases hne : accuracy_checks d = []
  · rw [if_neg (not_not.mpr hne)]
    constructor <;> norm_num [Rat.mkRat_eq_div]
  · rw [if_pos hne, qdiv_eq, qsum_eq, qnat_eq]
    exact mean_bounds _ hne (accuracy_checks_bounds d)

theorem _score_consistency_bounds (d : PropertyData) :
    0 ≤ _score_consistency d ∧ _score_consistency d ≤ 1 := by
  simp only [_score_consistency]
  by_cases hne : consistency_checks d = []
  · rw [if_neg (not_not.mpr hne)]
    constructor <;> norm_num [Rat.mkRat_eq_div]
  · rw [if_pos hne, qdiv_eq, qsum_eq, qnat_eq]
    exact mean_bounds _ hne (consistency_checks_bounds d)

theorem _score_timeliness_bounds (age : Option ℤ) :
    0 ≤ (_score_timeliness age).1 ∧ (_score_timeliness age).1 ≤ 1 := by
  rcases age with _ | h
  · constructor <;> norm_num [_score_timeliness, Rat.mkRat_eq_div]
  · constructor <;> simp only [_score_timeliness] <;> split_ifs <;>
      norm_num [Rat.mkRat_eq_div]

theorem pyRound3_bounds (q : ℚ) (h0 : 0 ≤ q) (h1 : q ≤ 1) :
    0 ≤ pyRound3 q ∧ pyRound3 q ≤ 1 := by
  have hdpos : (0:ℤ) < (q.den : ℤ) := by
    exact_mod_cast Nat.pos_of_ne_zero q.den_nz
  have hn0 : 0 ≤ q.num := Rat.num_nonneg.mpr h0
  have hnd : q.num ≤ (q.den : ℤ) := by
    have hq := (qble_iff q 1).mpr h1
    rw [qble, decide_eq_true_eq] at hq
    simpa using hq
  have hN0 : (0:ℤ) ≤ 1000 * q.num := by linarith
  have hid := Int.fdiv_add_fmod (1000 * q.num) (q.den : ℤ)
  have hr0 : 0 ≤ (1000 * q.num).fmod (q.den : ℤ) :=
    Int.fmod_nonneg hN0 hdpos.le
  have hf0 : 0 ≤ (1000 * q.num).fdiv (q.den : ℤ) :=
    Int.fdiv_nonneg hN0 hdpos.le
  have hub : 1000 * q.num ≤ (q.den : ℤ) * 1000 := by linarith
  have hfle : (1000 * q.num).fdiv (q.den : ℤ) ≤ 1000 := by
    have hmul : (q.den : ℤ) * ((1000 * q.num).fdiv (q.den : ℤ)) ≤
        (q.den : ℤ) * 1000 := by linarith
    exact le_of_mul_le_mul_left hmul hdpos
  have hflt : 0 < (1000 * q.num).fmod (q.den : ℤ) →
      (1000 * q.num).fdiv (q.den : ℤ) + 1 ≤ 1000 := by
    intro hrpos
    have hmul : (q.den : ℤ) * ((1000 * q.num).fdiv (q.den : ℤ)) <
        (q.den : ℤ) * 1000 := by linarith
    have := lt_of_mul_lt_mul_left hmul hdpos.le
    omega
  refine ⟨?_, ?_⟩
  · simp only [pyRound3]
    split_ifs <;>
      (rw [Rat.mkRat_eq_div]
       apply div_nonneg _ (by norm_num)
       first
        | exact_mod_cast hf0
        | exact_mod_cast
            (by omega :
              (0:ℤ) ≤ (1000 * q.num).fdiv (q.den : ℤ) + 1))
  · simp only [pyRound3]
    split_ifs <;>
      (rw [Rat.mkRat_eq_div, div_le_one (by norm_num)]
       first
        | exact_mod_cast hfle
        | (have hrpos : 0 < (1000 * q.num).fmod (q.den : ℤ) := by
             linarith
           exact_mod_cast hflt hrpos))

theorem quality_weighted_sum_bounds (d : PropertyData) (age : Option ℤ)
    (dup : Bool) :
    0 ≤ quality_weighted_sum d age dup ∧
      quality_weighted_sum d age dup ≤ 1 := by
  obtain ⟨hc0, hc1⟩ := _score_completeness_bounds d
  obtain ⟨ha0, ha1⟩ := _score_accuracy_bounds d
  obtain ⟨hk0, hk1⟩ := _score_consistency_bounds d
  obtain ⟨ht0, ht1⟩ := _score_timeliness_bounds age
  have hv : _score_validity = mkRat 95 100 := rfl
  have hv2 : (0:ℚ) ≤ _score_validity ∧ _score_validity ≤ 1 := by
    rw [hv]
    constructor <;> norm_num [Rat.mkRat_eq_div]
  have hu : (0:ℚ) ≤ (if dup then (0.95:ℚ) else 1) ∧
      (if dup then (0.95:ℚ) else 1) ≤ 1 := by
    split_ifs <;> norm_num
  rw [quality_weighted_sum]
  constructor <;> nlinarith [hv2.1, hv2.2, hu.1, hu.2]

/-- C7: every confidence and score the embedded components produce
lies in [0,1]: the normalizer's address confidence, every
`MatchCandidate` confidence produced by `score_match`, the
`EntityResolutionResult` confidence of `classify_matches` (on
candidates with in-range confidences, as produced by scoring) and of
`resolve_from_candidates` together with all its returned matches, and
the overall quality score with all six sub-scores.  The external
similarity metric is assumed to be a [0,1] metric (the documented
guarantee of Jaro-Winkler). -/
theorem confidence_values_bounded (simF : String → String → ℚ)
    (distF : ℚ → ℚ → ℚ → ℚ → ℚ)
    (hsim : ∀ a b, 0 ≤ simF a b ∧ simF a b ≤ 1) :
    (∀ raw tagged, 0 ≤ (normalize raw tagged).confidence ∧
      (normalize raw tagged).confidence ≤ 1) ∧
    (∀ ia il ilo ip cid ca cla clo apn mt,
      0 ≤ (score_match simF distF ia il ilo ip cid ca cla clo apn
        mt).confidence ∧
      (score_match simF distF ia il ilo ip cid ca cla clo apn
        mt).confidence ≤ 1) ∧
    (∀ cs, (∀ c ∈ cs, 0 ≤ c.confidence ∧ c.confidence ≤ 1) →
      0 ≤ (classify_matches cs).confidence ∧
        (classify_matches cs).confidence ≤ 1) ∧
    (∀ address lat lng parcel_id cands,
      (0 ≤ (resolve_from_candidates simF distF address lat lng
          parcel_id cands).confidence ∧
        (resolve_from_candidates simF distF address lat lng parcel_id
          cands).confidence ≤ 1) ∧
      ∀ m ∈ (resolve_from_candidates simF distF address lat lng
          parcel_id cands).«matches»,
        0 ≤ m.confidence ∧ m.confidence ≤ 1) ∧
    (∀ d age dup,
      ∀ x ∈ [(calculate_quality_score d age dup).score,
        (calculate_quality_score d age dup).completeness,
        (calculate_quality_score d age dup).accuracy,
        (calculate_quality_score d age dup).consistency,
        (calculate_quality_score d age dup).timeliness,
        (calculate_quality_score d age dup).validity,
        (calculate_quality_score d age dup).uniqueness],
        0 ≤ x ∧ x ≤ 1) := by
  refine ⟨normalize_confidence_bounds, ?_, ?_, ?_, ?_⟩
  · intro ia il ilo ip cid ca cla clo apn mt
    exact score_match_confidence_bounds simF distF hsim ia il ilo ip
      cid ca cla clo apn mt
  · intro cs h
    exact (classify_matches_bounds cs h).1
  · intro address lat lng parcel_id cands
    exact resolve_from_candidates_bounds simF distF hsim address lat
      lng parcel_id cands
  · intro d age dup x hx
    rw [calculate_quality_score_eq d age dup] at hx
    have hval : (0:ℚ) ≤ _score_validity ∧ _score_validity ≤ 1 := by
      constructor <;> norm_num [_score_validity, Rat.mkRat_eq_div]
    have huniq : (0:ℚ) ≤ (if dup then (0.95:ℚ) else 1) ∧
        (if dup then (0.95:ℚ) else 1) ≤ 1 := by
      split_ifs <;> norm_num
    simp only [List.mem_cons, List.mem_singleton] at hx
    rcases hx with rfl | rfl | rfl | rfl | rfl | rfl | rfl | hx
    · exact pyRound3_bounds _ (quality_weighted_sum_bounds d age dup).1
        (quality_weighted_sum_bounds d age dup).2
    · exact pyRound3_bounds _ (_score_completeness_bounds d).1
        (_score_completeness_bounds d).2
    · exact pyRound3_bounds _ (_score_accuracy_bounds d).1
        (_score_accuracy_bounds d).2
    · exact pyRound3_bounds _ (_score_consistency_bounds d).1
        (_score_consistency_bounds d).2
    · exact pyRound3_bounds _ (_score_timeliness_bounds age).1
        (_score_timeliness_bounds age).2
    · exact pyRound3_bounds _ hval.1 hval.2
    · exact pyRound3_bounds _ huniq.1 huniq.2
    · exact absurd hx (by simp)

theorem confidence_values_bounded_witness :
    0 ≤ (normalize "123 Main St" none).confidence ∧
      (normalize "123 Main St" none).confidence ≤ 1 :=
  (confidence_values_bounded (fun _ _ => 1/2) (fun _ _ _ _ => 0)
    (fun _ _ => by norm_num)).1 "123 Main St" none

end ParcelData
